import Mathlib

/-!
# fatresize: size parsing, boundary snapping and the resize sequence

A shallow embedding of `fatresize.c`.  C strings are lists of characters,
`PedSector` (a signed 64-bit integer) is an `Int` that is wrapped explicitly
where the C code multiplies, and the calls into libparted are answered by an
explicit environment record; every call is appended to a trace.  The
variadic scan of `try_snap` is ended by the callers with an `int`, which the
scan reads back as a `PedSector`: what it then reads is part of the
environment as well.
-/

namespace Fatresize

/-! ## Machine integers -/

/-- Largest value of the signed 64-bit `PedSector` / `long long`. -/
def LLONG_MAX : Int := 9223372036854775807

/-- Smallest value of the signed 64-bit `PedSector` / `long long`. -/
def LLONG_MIN : Int := -9223372036854775808

/-- Value of `ERANGE` from `<errno.h>`. -/
def ERANGE : Int := 34

/-- Two's-complement wrap of a mathematical integer into the signed 64-bit
range: what `size *= prefix_kind` leaves in `size` on the usual targets. -/
def wrap64 (x : Int) : Int :=
  (x + 9223372036854775808) % 18446744073709551616 - 9223372036854775808

/-! ## `strtoll(s, &suffix, 10)` -/

/-- The C locale `isspace`: space, `\t`, `\n`, `\v`, `\f`, `\r`. -/
def isspace (c : Char) : Bool :=
  c.toNat == 32 || (9 ≤ c.toNat && c.toNat ≤ 13)

/-- The C `isdigit`. -/
def isdigit (c : Char) : Bool :=
  48 ≤ c.toNat && c.toNat ≤ 57

/-- Value of a run of decimal digits, most significant digit first, on top
of the accumulator `acc`. -/
def digitsValue (acc : Nat) : List Char → Nat
  | [] => acc
  | c :: cs => digitsValue (acc * 10 + (c.toNat - 48)) cs

/-- What `strtoll` hands back: the converted value, the unparsed rest
(`*endptr`) and whether it stored `ERANGE` in `errno`. -/
structure StrtollResult where
  value : Int
  endptr : List Char
  erange : Bool
deriving DecidableEq, Repr

/-- Splits an optional sign off the front of the subject sequence. -/
def splitSign : List Char → Bool × List Char
  | '-' :: r => (true, r)
  | '+' :: r => (false, r)
  | t => (false, t)

/-- Base-10 `strtoll`: skip white space, read an optional sign and the
longest run of digits; with no digit the value is 0 and `endptr` is the
whole input; a value outside the `long long` range is clamped and `ERANGE`
is reported. -/
def strtoll (s : List Char) : StrtollResult :=
  let t := s.dropWhile isspace
  let sg := splitSign t
  let ds := sg.2.takeWhile isdigit
  let rest := sg.2.dropWhile isdigit
  if ds = [] then ⟨0, s, false⟩
  else
    let n : Int := (digitsValue 0 ds : Nat)
    let v : Int := if sg.1 then -n else n
    if v > LLONG_MAX then ⟨LLONG_MAX, rest, true⟩
    else if v < LLONG_MIN then ⟨LLONG_MIN, rest, true⟩
    else ⟨v, rest, false⟩

/-! ## `get_size` -/

/-- The `switch (*suffix)` of `get_size` with its fall-through: `G` multiplies
three times, `M` twice, `k` once; any other first character reaches
`usage(1)`, which leaves the process (`none`). -/
def applyUnit (size : Int) (prefix_kind : Int) : Char → Option Int
  | 'G' => some (wrap64 (wrap64 (wrap64 (size * prefix_kind) * prefix_kind) * prefix_kind))
  | 'M' => some (wrap64 (wrap64 (size * prefix_kind) * prefix_kind))
  | 'k' => some (wrap64 (size * prefix_kind))
  | _ => none

/-- The function `get_size(char *s)`.  `errno` is the value of the C `errno` on entry
(the function never clears it).  `none` stands for the two exits through
`usage(1)`; `some size` is the returned `PedSector`. -/
def get_size (errno : Int) (s : List Char) : Option Int :=
  let r := strtoll s
  let size := r.value
  let errno1 := if r.erange then ERANGE else errno
  if size ≤ 0 ∨ errno1 = ERANGE then none
  else
    match r.endptr with
    | [] => some size
    | c :: tl =>
      if tl.length + 1 = 2 ∧ tl.head? = some 'i' then applyUnit size 1024 c
      else if tl.length + 1 > 1 then none
      else applyUnit size 1000 c

/-- The unit suffixes the usage text names: none, `k`, `M`, `G`, `ki`, `Mi`,
`Gi`. -/
inductive Suffix where
  | bytes | k | M | G | ki | Mi | Gi
deriving DecidableEq, Repr

/-- The characters of a suffix as they are typed. -/
def Suffix.chars : Suffix → List Char
  | .bytes => []
  | .k => ['k']
  | .M => ['M']
  | .G => ['G']
  | .ki => ['k', 'i']
  | .Mi => ['M', 'i']
  | .Gi => ['G', 'i']

/-- The multiplier the specification gives each suffix. -/
def Suffix.multiplier : Suffix → Int
  | .bytes => 1
  | .k => 1000
  | .M => 1000 ^ 2
  | .G => 1000 ^ 3
  | .ki => 1024
  | .Mi => 1024 ^ 2
  | .Gi => 1024 ^ 3

/-! ## Geometries and the partition layout (libparted data) -/

/-- A `PedGeometry`: `start`, `length` and `end` sector (the `dev` pointer is
left out).  `end_` is the C field `end`. -/
structure PedGeometry where
  start : Int
  length : Int
  end_ : Int
deriving DecidableEq, Repr

/-- The invariant libparted keeps for every geometry it hands out:
non-negative start, at least one sector, `end = start + length - 1`. -/
def PedGeometry.valid (g : PedGeometry) : Prop :=
  0 ≤ g.start ∧ 1 ≤ g.length ∧ g.end_ = g.start + g.length - 1

instance (g : PedGeometry) : Decidable g.valid := by
  unfold PedGeometry.valid
  infer_instance

/-- The libparted test `ped_geometry_test_sector_inside`: `start <= sector <= end`. -/
def ped_geometry_test_sector_inside (geom : PedGeometry) (sector : Int) : Bool :=
  decide (geom.start ≤ sector) && decide (sector ≤ geom.end_)

/-- Ways in which a run stops without returning: a failed assertion that
aborts, the use of a NULL pointer, or `va_arg` running off the mapped stack
(both of the latter end in SIGSEGV). -/
inductive Fault where
  | assertion
  | null_deref
  | va_overrun
deriving DecidableEq, Repr

/-- What a failed `FAT_ASSERT(cond, action)` does.  With `LIBPARTED_GT_2_4`
(set in `config.h`) the macro is `PED_ASSERT(cond)`, which aborts.  Otherwise
it is `PED_ASSERT(cond, action)`: libparted raises a bug exception,
`fatresize_handler` answers cancel for it, and `action` runs. -/
inductive AssertFail where
  | abort
  | action
deriving DecidableEq, Repr

/-- The libparted setter `ped_geometry_set(geom, start, length)`: refuses a length below 1
(the geometry is left as it was), asserts `start >= 0`. -/
def ped_geometry_set (geom : PedGeometry) (start length : Int) : Except Fault (PedGeometry × Bool) :=
  if start < 0 then Except.error Fault.assertion
  else if length < 1 then Except.ok (geom, false)
  else Except.ok (⟨start, length, start + length - 1⟩, true)

/-- An entry of the partition list of a `PedDisk`: a partition, a stretch of
free space or metadata.  Only the fields fatresize reads are kept. -/
structure PedPartition where
  geom : PedGeometry
  is_extended : Bool
  fs_type_name : Option (List Char)
  is_busy : Bool
deriving DecidableEq, Repr

/-- A `PedDisk`: its partition list in walking order. -/
structure PedDisk where
  part_list : List PedPartition
deriving DecidableEq, Repr

/-- The libparted lookup `ped_disk_get_partition_by_sector`: the first entry that is not an
extended partition and contains the sector, NULL (`none`) when there is
none. -/
def ped_disk_get_partition_by_sector (disk : PedDisk) (sect : Int) : Option PedPartition :=
  disk.part_list.find? (fun walk =>
    ped_geometry_test_sector_inside walk.geom sect && !walk.is_extended)

/-- The layout is a partition of the disk: two entries that are not extended
partitions and share a sector have the same geometry. -/
def PedDisk.disjoint (disk : PedDisk) : Prop :=
  ∀ p ∈ disk.part_list, ∀ q ∈ disk.part_list, p.is_extended = false → q.is_extended = false →
    ∀ x, ped_geometry_test_sector_inside p.geom x = true →
      ped_geometry_test_sector_inside q.geom x = true → q.geom = p.geom

/-- Reading through a pointer that may be NULL. -/
def deref {α : Type} : Option α → Except Fault α
  | some a => Except.ok a
  | none => Except.error Fault.null_deref

/-! ## `snap`, `try_snap`, `snap_to_boundaries` -/

/-- The function `snap(&sector, new_sector, range)`: the pair is the new value of `*sector`
and the returned flag. -/
def snap (m : AssertFail) (sector new_sector : Int) (range : PedGeometry) :
    Except Fault (Int × Bool) :=
  if !ped_geometry_test_sector_inside range sector then
    match m with
    | AssertFail.abort => Except.error Fault.assertion
    | AssertFail.action => Except.ok (sector, false)
  else if !ped_geometry_test_sector_inside range new_sector then Except.ok (sector, false)
  else Except.ok (new_sector, true)

/-- What `va_arg(list, PedSector)` yields in a `try_snap` call once the
`PedSector` arguments are consumed.  The callers end the argument list with
the `int` literal `-1`, not with a `PedSector`, so the first value is what
the 8-byte read makes of the slot of that `int` (4294967295 when the upper
half of the slot is zero, as on x86-64 with gcc; -1 when it is
sign-extended), and the next values are the memory behind the arguments:
the frame of `snap_to_boundaries`, which holds its locals `start` and `end`.
The two arguments of each function are the values of these two locals when
the call is made.  The end of the list stands for the end of the mapped
stack. -/
structure VaRead where
  start_call : Int → Int → List Int
  end_call : Int → Int → List Int

/-- The variadic reads stop at the sentinel: the slot of the sentinel reads
back as `-1` in both calls. -/
def VaRead.sentinel_read (va : VaRead) : Prop :=
  (∀ s e, ∃ r, va.start_call s e = -1 :: r) ∧ (∀ s e, ∃ r, va.end_call s e = -1 :: r)

/-- The function `try_snap(&sector, range, ...)`: the list holds the values that the
successive `va_arg(list, PedSector)` yield; they are read until one equals
`-1` or a `snap` succeeds. -/
def try_snap (m : AssertFail) (sector : Int) (range : PedGeometry) :
    List Int → Except Fault Int
  | [] => Except.error Fault.va_overrun
  | new_sector :: rest =>
    if new_sector = -1 then Except.ok sector
    else
      match snap m sector new_sector range with
      | Except.error f => Except.error f
      | Except.ok (s, true) => Except.ok s
      | Except.ok (s, false) => try_snap m s range rest

/-- The part of `snap_to_boundaries` up to its final assertion: the values of
the locals `start` and `end` after the two `try_snap` calls.  Each call
passes its `PedSector` candidates; what is read after them is `va`. -/
def snap_endpoints (m : AssertFail) (va : VaRead) (new_geom : PedGeometry)
    (old_geom : Option PedGeometry) (disk : PedDisk) (start_range end_range : PedGeometry) :
    Except Fault (Int × Int) :=
  let start := new_geom.start
  let end_ := new_geom.end_
  let start_part := ped_disk_get_partition_by_sector disk start
  let end_part := ped_disk_get_partition_by_sector disk end_
  match old_geom with
  | some og =>
    match deref start_part with
    | Except.error f => Except.error f
    | Except.ok sp =>
      match try_snap m start start_range
          ([og.start, sp.geom.start, sp.geom.end_ + 1] ++ va.start_call start end_) with
      | Except.error f => Except.error f
      | Except.ok s =>
        match deref end_part with
        | Except.error f => Except.error f
        | Except.ok ep =>
          match try_snap m end_ end_range
              ([og.end_, ep.geom.end_, ep.geom.start - 1] ++ va.end_call s end_) with
          | Except.error f => Except.error f
          | Except.ok e => Except.ok (s, e)
  | none =>
    match deref start_part with
    | Except.error f => Except.error f
    | Except.ok sp =>
      match try_snap m start start_range
          ([sp.geom.start, sp.geom.end_ + 1] ++ va.start_call start end_) with
      | Except.error f => Except.error f
      | Except.ok s =>
        match deref end_part with
        | Except.error f => Except.error f
        | Except.ok ep =>
          match try_snap m end_ end_range
              ([ep.geom.end_, ep.geom.start - 1] ++ va.end_call s end_) with
          | Except.error f => Except.error f
          | Except.ok e => Except.ok (s, e)

/-- The function `snap_to_boundaries(new_geom, old_geom, disk, start_range, end_range)`: the
result is the value of `*new_geom` when the function returns. -/
def snap_to_boundaries (m : AssertFail) (va : VaRead) (new_geom : PedGeometry)
    (old_geom : Option PedGeometry) (disk : PedDisk) (start_range end_range : PedGeometry) :
    Except Fault PedGeometry :=
  match snap_endpoints m va new_geom old_geom disk start_range end_range with
  | Except.error f => Except.error f
  | Except.ok (start, end_) =>
    if ¬ (start ≤ end_) then
      match m with
      | AssertFail.abort => Except.error Fault.assertion
      | AssertFail.action => Except.ok new_geom
    else
      match ped_geometry_set new_geom start (end_ - start + 1) with
      | Except.error f => Except.error f
      | Except.ok (g, _) => Except.ok g

/-- The first candidate, in the given order, that lies within the range; the
original value when there is none.  This is the rule the specification
states for one endpoint. -/
def firstInRange (range : PedGeometry) (candidates : List Int) (original : Int) : Int :=
  match candidates.find? (fun c => ped_geometry_test_sector_inside range c) with
  | some c => c
  | none => original

/-- The previous geometry's endpoint, when a previous geometry is given. -/
def previousEndpoint (old_geom : Option PedGeometry) (f : PedGeometry → Int) : List Int :=
  match old_geom with
  | some og => [f og]
  | none => []

/-! ## The libparted environment of `main` -/

/-- The macro `FAT32MIN`, `1024*1024*512`. -/
def FAT32MIN : Int := 1024 * 1024 * 512

/-- A `PedConstraint` with both alignments "any": the two ranges and the
size bounds. -/
structure PedConstraint where
  start_range : PedGeometry
  end_range : PedGeometry
  min_size : Int
  max_size : Int
deriving DecidableEq, Repr

/-- The fields of `PedDevice` that `main` reads; `sector_size` is positive on
every device libparted opens.  `is_file` is `type == PED_DEVICE_FILE`. -/
structure PedDevice where
  sector_size : Int
  length : Int
  boot_dirty : Bool
  is_file : Bool
deriving DecidableEq, Repr

/-- The global `opts` after option parsing (the output-only fields
`verbose` and `progress` are left out). -/
structure Opts where
  dev : Option (List Char)
  size : Int
  is_evms : Bool
  info : Bool
deriving DecidableEq, Repr

/-- The messages `main` raises through `ped_exception_throw`. -/
inductive Msg where
  | not_fat
  | busy
  | fat32_min
  | boot_loader
deriving DecidableEq, Repr

/-- A call into libparted as it appears in the trace of a run, with the
arguments that matter.  The two commit calls also record the geometry the
partition-table entry has when the call is made. -/
inductive Call where
  | ped_device_get
  | ped_device_open
  | ped_disk_new
  | ped_disk_get_partition
  | ped_partition_is_busy (busy : Bool)
  | ped_exception_throw (msg : Msg)
  | ped_unit_format (sector : Int)
  | ped_unit_parse (str : List Char)
  | ped_file_system_open (geom : PedGeometry)
  | ped_file_system_get_resize_constraint
  | ped_constraint_intersect
  | ped_disk_set_partition_geom (constraint : PedConstraint) (start end_ : Int)
  | ped_file_system_resize (geom : PedGeometry)
  | ped_partition_set_system
  | ped_file_system_close
  | ped_disk_commit (entry : PedGeometry)
  | ped_disk_commit_to_dev (entry : PedGeometry)
  | ped_disk_destroy
  | ped_device_close
deriving DecidableEq, Repr

/-- The calls that change the partition table or the file system:
`ped_disk_set_partition_geom`, `ped_file_system_resize`,
`ped_partition_set_system` and the two commits. -/
def Call.isWrite : Call → Bool
  | Call.ped_disk_set_partition_geom _ _ _ => true
  | Call.ped_file_system_resize _ => true
  | Call.ped_partition_set_system => true
  | Call.ped_disk_commit _ => true
  | Call.ped_disk_commit_to_dev _ => true
  | _ => false

/-- The query `ped_partition_is_busy` answered "busy". -/
def Call.isBusyReport : Call → Bool
  | Call.ped_partition_is_busy true => true
  | _ => false

/-- The exception "FAT32 partition must be bigger than 512Mb." -/
def Call.isFat32Min : Call → Bool
  | Call.ped_exception_throw Msg.fat32_min => true
  | _ => false

/-- No call of the trace satisfies `p`. -/
def quietFor (p : Call → Bool) (tr : List Call) : Bool :=
  tr.all (fun c => !p c)

/-- How a run of `main` ends: `return code`, or a fault. -/
inductive Exit where
  | returned (code : Int)
  | fault (f : Fault)
deriving DecidableEq, Repr

/-- A run of `main`: the libparted calls in the order they were made, and how
the run ended. -/
structure Run where
  trace : List Call
  exit : Exit
deriving DecidableEq, Repr

/-- The answers of libparted to the calls `main` makes.
`ped_disk_set_partition_geom cur c start end` is the geometry the entry gets
(libparted solves the constraint `c` near `start`, `end`) or `none`.  The field
`va` is what the variadic reads of `try_snap` find behind the arguments. -/
structure Env where
  va : VaRead
  ped_device_get : Option PedDevice
  ped_device_open : Bool
  ped_disk_new : Option PedDisk
  ped_disk_get_partition : Option PedPartition
  ped_unit_format : Int → List Char
  ped_unit_parse : List Char → Option (Int × PedGeometry)
  ped_file_system_open : PedGeometry → Bool
  ped_file_system_get_resize_constraint : Option PedConstraint
  ped_constraint_intersect : Option PedConstraint → Option PedConstraint → Option PedConstraint
  ped_disk_set_partition_geom : PedGeometry → PedConstraint → Int → Int → Option PedGeometry
  ped_file_system_resize : PedGeometry → Bool
  ped_disk_commit : Bool
  ped_disk_commit_to_dev : Bool

/-- The run that makes the calls `cs` and then continues as `r`. -/
def after (cs : List Call) (r : Run) : Run :=
  ⟨cs ++ r.trace, r.exit⟩

/-- The statement `return code;` of `main`. -/
def done (code : Int) : Run :=
  ⟨[], Exit.returned code⟩

/-- A stage of `main`: it has either ended the run, or made some calls and
goes on with a value. -/
inductive Step (α : Type) where
  | stop (r : Run)
  | go (trace : List Call) (a : α)
deriving DecidableEq

/-- The libparted constructor `ped_geometry_init(geom, dev, start, length)` (and
`ped_geometry_new`, `ped_geometry_duplicate`): the geometry, or `none` when
`ped_geometry_set` refuses it. -/
def ped_geometry_init (start length : Int) : Except Fault (Option PedGeometry) :=
  match ped_geometry_set ⟨0, 0, 0⟩ start length with
  | Except.error f => Except.error f
  | Except.ok (g, true) => Except.ok (some g)
  | Except.ok (_, false) => Except.ok none

/-- The function `constraint_from_start_end(dev, range_start, range_end)`:
`ped_constraint_new(any, any, range_start, range_end, 1, dev->length)`. -/
def constraint_from_start_end (dev : PedDevice) (range_start range_end : PedGeometry) :
    PedConstraint :=
  ⟨range_start, range_end, 1, dev.length⟩

/-- The libparted constructor `ped_constraint_exact(geom)`: start and end pinned to the
single sectors `geom->start` and `geom->end`. -/
def ped_constraint_exact (dev : PedDevice) (geom : PedGeometry) : PedConstraint :=
  ⟨⟨geom.start, 1, geom.start⟩, ⟨geom.end_, 1, geom.end_⟩, 1, dev.length⟩

/-- The libparted predicate `ped_constraint_is_solution`: start and end in their ranges and
the length within the size bounds. -/
def ped_constraint_is_solution (c : PedConstraint) (g : PedGeometry) : Prop :=
  ped_geometry_test_sector_inside c.start_range g.start = true
    ∧ ped_geometry_test_sector_inside c.end_range g.end_ = true
    ∧ c.min_size ≤ g.length ∧ g.length ≤ c.max_size

/-- The test `!strncmp(name, "fat", 3)`. -/
def is_fat_name (name : List Char) : Bool :=
  name.take 3 == ['f', 'a', 't']

/-- The test `part->fs_type->name[3] == '3'`. -/
def is_fat32_name (name : List Char) : Bool :=
  name[3]? == some '3'

/-! ## `main` -/

/-- The function `partition_warn_busy(part)`: the calls it makes and its return value. -/
def partition_warn_busy (part : PedPartition) : List Call × Bool :=
  if part.is_busy then
    ([Call.ped_partition_is_busy true, Call.ped_exception_throw Msg.busy], false)
  else ([Call.ped_partition_is_busy false], true)

/-- The function `constraint_intersect_and_destroy(a, b)`. -/
def constraint_intersect_and_destroy (env : Env) (a b : Option PedConstraint) :
    Option PedConstraint :=
  env.ped_constraint_intersect a b

/-- Lines 412-473 of `main`: the argument checks, opening the device, the
disk and the partition, the FAT test and the busy guard. -/
def main_open (env : Env) (opts : Opts) :
    Step (PedDevice × PedDisk × PedPartition × List Char) :=
  if opts.dev.isNone then Step.stop (done 1)
  else if opts.size = 0 ∧ opts.info = false then Step.stop (done 1)
  else
    match env.ped_device_get with
    | none => Step.stop (after [Call.ped_device_get] (done 1))
    | some dev =>
      if env.ped_device_open = false then
        Step.stop (after [Call.ped_device_get, Call.ped_device_open] (done 1))
      else
        match env.ped_disk_new with
        | none =>
          Step.stop (after [Call.ped_device_get, Call.ped_device_open, Call.ped_disk_new]
            (done 1))
        | some disk =>
          match env.ped_disk_get_partition with
          | none =>
            Step.stop (after [Call.ped_device_get, Call.ped_device_open, Call.ped_disk_new,
              Call.ped_disk_get_partition] (done 1))
          | some part =>
            match part.fs_type_name with
            | none =>
              Step.stop (after [Call.ped_device_get, Call.ped_device_open, Call.ped_disk_new,
                Call.ped_disk_get_partition] (done 1))
            | some name =>
              if is_fat_name name = false then
                Step.stop (after [Call.ped_device_get, Call.ped_device_open,
                  Call.ped_disk_new, Call.ped_disk_get_partition,
                  Call.ped_exception_throw Msg.not_fat] (done 1))
              else if (partition_warn_busy part).2 = false then
                Step.stop (after ([Call.ped_device_get, Call.ped_device_open,
                  Call.ped_disk_new, Call.ped_disk_get_partition]
                  ++ (partition_warn_busy part).1 ++ [Call.ped_disk_destroy]) (done 1))
              else
                Step.go ([Call.ped_device_get, Call.ped_device_open, Call.ped_disk_new,
                  Call.ped_disk_get_partition] ++ (partition_warn_busy part).1)
                  (dev, disk, part, name)

/-- Lines 475-496 of `main`: the `--info` branch (what it prints is left
out). -/
def main_info (env : Env) (part : PedPartition) : Run :=
  if env.ped_file_system_open part.geom = false then
    after [Call.ped_file_system_open part.geom] (done 1)
  else
    match env.ped_file_system_get_resize_constraint with
    | none =>
      after [Call.ped_file_system_open part.geom, Call.ped_file_system_get_resize_constraint]
        (done 1)
    | some _ =>
      after [Call.ped_file_system_open part.geom, Call.ped_file_system_get_resize_constraint]
        (done 0)

/-- What lines 498-529 of `main` compute: the two ranges, the copy of the
partition's geometry and the geometry that `snap_to_boundaries` leaves in
`new_geom`. -/
structure Plan where
  range_start : PedGeometry
  range_end : PedGeometry
  old_geom : PedGeometry
  new_geom : PedGeometry
deriving DecidableEq, Repr

/-- Lines 504-515 of `main`: the requested end, the comparison of the two
renderings and the choice of `end` and `range_end`. -/
def main_end_range (env : Env) (opts : Opts) (dev : PedDevice) (part : PedPartition) :
    Step (Int × PedGeometry) :=
  let end_ := wrap64 (part.geom.start + Int.tdiv opts.size dev.sector_size)
  let old_str := env.ped_unit_format part.geom.end_
  let def_str := env.ped_unit_format end_
  let fmt := [Call.ped_unit_format part.geom.end_, Call.ped_unit_format end_]
  if old_str = def_str then
    match ped_geometry_init part.geom.end_ 1 with
    | Except.error f => Step.stop ⟨fmt, Exit.fault f⟩
    | Except.ok none => Step.stop (after fmt (done 1))
    | Except.ok (some range_end) => Step.go fmt (end_, range_end)
  else
    match env.ped_unit_parse def_str with
    | none => Step.stop (after (fmt ++ [Call.ped_unit_parse def_str]) (done 1))
    | some (e, range_end) => Step.go (fmt ++ [Call.ped_unit_parse def_str]) (e, range_end)

/-- Lines 498-529 of `main`: the planning part, up to and including
`snap_to_boundaries`. -/
def main_plan (m : AssertFail) (env : Env) (opts : Opts) (dev : PedDevice) (disk : PedDisk)
    (part : PedPartition) : Step Plan :=
  let start := part.geom.start
  match ped_geometry_init start 1 with
  | Except.error f => Step.stop ⟨[], Exit.fault f⟩
  | Except.ok none => Step.stop (done 1)
  | Except.ok (some range_start) =>
    match main_end_range env opts dev part with
    | Step.stop r => Step.stop r
    | Step.go tr (end_, range_end) =>
      match ped_geometry_init start (end_ - start + 1) with
      | Except.error f => Step.stop ⟨tr, Exit.fault f⟩
      | Except.ok none => Step.stop (after tr (done 1))
      | Except.ok (some new_geom) =>
        match snap_to_boundaries m env.va new_geom (some part.geom) disk range_start
            range_end with
        | Except.error f => Step.stop ⟨tr, Exit.fault f⟩
        | Except.ok g => Step.go tr ⟨range_start, range_end, part.geom, g⟩

/-- Lines 531-550 of `main`: opening the file system, intersecting the
constraints and the FAT32 minimum-size check. -/
def main_check (env : Env) (opts : Opts) (dev : PedDevice) (part : PedPartition)
    (name : List Char) (plan : Plan) : Step PedConstraint :=
  if env.ped_file_system_open part.geom = false then
    Step.stop (after [Call.ped_file_system_open part.geom] (done 1))
  else
    match constraint_intersect_and_destroy env env.ped_file_system_get_resize_constraint
        (some (constraint_from_start_end dev plan.range_start plan.range_end)) with
    | none =>
      Step.stop (after [Call.ped_file_system_open part.geom,
        Call.ped_file_system_get_resize_constraint, Call.ped_constraint_intersect] (done 1))
    | some constraint =>
      if is_fat32_name name = true ∧ opts.size < FAT32MIN then
        Step.stop (after [Call.ped_file_system_open part.geom,
          Call.ped_file_system_get_resize_constraint, Call.ped_constraint_intersect,
          Call.ped_exception_throw Msg.fat32_min] (done 1))
      else
        Step.go [Call.ped_file_system_open part.geom,
          Call.ped_file_system_get_resize_constraint, Call.ped_constraint_intersect] constraint

/-- Lines 598-610 of `main`: the end of a successful run. -/
def main_finish (dev : PedDevice) : Run :=
  if dev.boot_dirty && !dev.is_file then
    after [Call.ped_disk_destroy, Call.ped_exception_throw Msg.boot_loader,
      Call.ped_device_close] (done 0)
  else after [Call.ped_disk_destroy, Call.ped_device_close] (done 0)

/-- Lines 552-597 of `main`: setting the geometry, resizing the file system
and the commit, which depends on `opts.is_evms`. -/
def main_execute (env : Env) (opts : Opts) (dev : PedDevice) (part : PedPartition)
    (plan : Plan) (constraint : PedConstraint) : Run :=
  after [Call.ped_disk_set_partition_geom constraint plan.new_geom.start plan.new_geom.end_] <|
  match env.ped_disk_set_partition_geom part.geom constraint plan.new_geom.start
      plan.new_geom.end_ with
  | none => after [Call.ped_file_system_close] (done 1)
  | some g1 =>
    after [Call.ped_file_system_resize g1] <|
    if env.ped_file_system_resize g1 = false then done 1
    else
      after [Call.ped_partition_set_system, Call.ped_file_system_close] <|
      if opts.is_evms = false then
        after [Call.ped_disk_commit g1] <|
        if env.ped_disk_commit = false then done 1 else main_finish dev
      else
        after [Call.ped_disk_set_partition_geom (ped_constraint_exact dev plan.old_geom)
          plan.old_geom.start plan.old_geom.end_] <|
        match env.ped_disk_set_partition_geom g1 (ped_constraint_exact dev plan.old_geom)
            plan.old_geom.start plan.old_geom.end_ with
        | none => done 1
        | some g2 =>
          after [Call.ped_disk_commit_to_dev g2] <|
          if env.ped_disk_commit_to_dev = false then done 1 else main_finish dev

/-- The function `main` after option parsing: `opts` is filled in, `env` answers the
libparted calls and `m` says what a failed `FAT_ASSERT` does. -/
def main (m : AssertFail) (env : Env) (opts : Opts) : Run :=
  match main_open env opts with
  | Step.stop r => r
  | Step.go tr (dev, disk, part, name) =>
    after tr <|
    if opts.info then main_info env part
    else
      match main_plan m env opts dev disk part with
      | Step.stop r => r
      | Step.go tr2 plan =>
        after tr2 <|
        match main_check env opts dev part name plan with
        | Step.stop r => r
        | Step.go tr3 constraint =>
          after tr3 (main_execute env opts dev part plan constraint)

/-! ## Sample environments

A disk of 4194304 sectors of 512 bytes with one FAT partition of 400 MiB at
sectors 20480..839679, metadata and free space before it and free space
behind it.  The renderings are those of libparted's compact unit: sector
839679 is byte 429915648, "430MB", and a megabyte figure parses back to the
sector of that many bytes with 976 sectors of tolerance either side. -/

/-- A sentinel that reads back as `-1`, as `(PedSector) -1` would. -/
def va_minus_one : VaRead :=
  ⟨fun _ _ => [-1], fun _ _ => [-1]⟩

/-- The reads seen with gcc 12 on x86-64 at `-O0` and `-O1` for a translation
unit of the shape of `fatresize.c`: the sentinel slot, a slot holding 0 in the
first call, then the local `end` and the local `start` (slots holding
addresses, far above every sector used here, are left out). -/
def va_gcc_O1 : VaRead :=
  ⟨fun start end_ => [4294967295, 0, end_, start], fun start end_ => [4294967295, end_, start]⟩

/-- The same at `-O2`, where the local `start` lies before the local `end`. -/
def va_gcc_O2 : VaRead :=
  ⟨fun start end_ => [4294967295, 0, start, end_], fun start end_ => [4294967295, start, end_]⟩

/-- Intersection of two sector ranges, `none` when they are disjoint. -/
def sample_geometry_intersect (a b : PedGeometry) : Option PedGeometry :=
  if max a.start b.start > min a.end_ b.end_ then none
  else some ⟨max a.start b.start, min a.end_ b.end_ - max a.start b.start + 1,
    min a.end_ b.end_⟩

/-- An answer function for `ped_constraint_intersect`: field-wise
intersection, NULL when an argument is NULL, a range is empty or the size
bounds cross. -/
def sample_constraint_intersect (a b : Option PedConstraint) : Option PedConstraint :=
  match a, b with
  | some a, some b =>
    match sample_geometry_intersect a.start_range b.start_range,
        sample_geometry_intersect a.end_range b.end_range with
    | some sr, some er =>
      if max a.min_size b.min_size ≤ min a.max_size b.max_size then
        some ⟨sr, er, max a.min_size b.min_size, min a.max_size b.max_size⟩
      else none
    | _, _ => none
  | _, _ => none

/-- An answer function for `ped_disk_set_partition_geom`: the solution of the
constraint nearest to the requested start and end, when there is one. -/
def sample_set_partition_geom (_cur : PedGeometry) (c : PedConstraint) (start end_ : Int) :
    Option PedGeometry :=
  if c.min_size ≤ max c.end_range.start (min end_ c.end_range.end_)
        - max c.start_range.start (min start c.start_range.end_) + 1
      ∧ max c.end_range.start (min end_ c.end_range.end_)
        - max c.start_range.start (min start c.start_range.end_) + 1 ≤ c.max_size
      ∧ 0 ≤ max c.start_range.start (min start c.start_range.end_)
      ∧ 1 ≤ max c.end_range.start (min end_ c.end_range.end_)
        - max c.start_range.start (min start c.start_range.end_) + 1
      ∧ c.start_range.start ≤ c.start_range.end_ ∧ c.end_range.start ≤ c.end_range.end_ then
    some ⟨max c.start_range.start (min start c.start_range.end_),
      max c.end_range.start (min end_ c.end_range.end_)
        - max c.start_range.start (min start c.start_range.end_) + 1,
      max c.end_range.start (min end_ c.end_range.end_)⟩
  else none

/-- The sample device. -/
def sampleDev : PedDevice := ⟨512, 4194304, false, false⟩

/-- The sample partition with a given file-system name and busy flag. -/
def samplePart (name : List Char) (busy : Bool) : PedPartition :=
  ⟨⟨20480, 819200, 839679⟩, false, some name, busy⟩

/-- The sample layout: metadata, free space, the partition, free space. -/
def sampleDisk (name : List Char) (busy : Bool) : PedDisk :=
  ⟨[⟨⟨0, 2048, 2047⟩, false, none, false⟩, ⟨⟨2048, 18432, 20479⟩, false, none, false⟩,
    samplePart name busy, ⟨⟨839680, 3354624, 4194303⟩, false, none, false⟩]⟩

/-- The renderings of the sectors used below. -/
def sample_unit_format (sector : Int) : List Char :=
  if sector = 839679 ∨ sector = 839680 then ['4', '3', '0', 'M', 'B']
  else if sector = 1249280 then ['6', '4', '0', 'M', 'B']
  else if sector = 1069056 then ['5', '4', '7', 'M', 'B']
  else if sector = 225280 then ['1', '1', '5', 'M', 'B']
  else if sector = 20480 then ['1', '0', '.', '5', 'M', 'B']
  else ['?']

/-- The sector and tolerance range each rendering parses back to. -/
def sample_unit_parse (str : List Char) : Option (Int × PedGeometry) :=
  if str = ['6', '4', '0', 'M', 'B'] then some (1250000, ⟨1249024, 1953, 1250976⟩)
  else if str = ['5', '4', '7', 'M', 'B'] then some (1068359, ⟨1067383, 1953, 1069335⟩)
  else if str = ['1', '1', '5', 'M', 'B'] then some (224609, ⟨223633, 1953, 225585⟩)
  else if str = ['1', '0', '.', '5', 'M', 'B'] then some (20507, ⟨19531, 1953, 21483⟩)
  else none

/-- A file-system constraint over the whole device with the given size
bounds, as `fat_get_resize_constraint` builds it. -/
def fullDevConstraint (min_size max_size : Int) : PedConstraint :=
  ⟨⟨0, 4194304, 4194303⟩, ⟨0, 4194304, 4194303⟩, min_size, max_size⟩

/-- The sample environment: every call succeeds, the file system reports the
resize constraint `fsc`, and the variadic reads are those of `va_gcc_O2`. -/
def sampleEnv (name : List Char) (busy : Bool) (fsc : Option PedConstraint) : Env where
  va := va_gcc_O2
  ped_device_get := some sampleDev
  ped_device_open := true
  ped_disk_new := some (sampleDisk name busy)
  ped_disk_get_partition := some (samplePart name busy)
  ped_unit_format := sample_unit_format
  ped_unit_parse := sample_unit_parse
  ped_file_system_open := fun _ => true
  ped_file_system_get_resize_constraint := fsc
  ped_constraint_intersect := sample_constraint_intersect
  ped_disk_set_partition_geom := sample_set_partition_geom
  ped_file_system_resize := fun _ => true
  ped_disk_commit := true
  ped_disk_commit_to_dev := true

/-- A layout on a disk of 7814037168 sectors (4 TB): free space, a partition
at sectors 4294000000..4296000000, free space. -/
def bigDisk : PedDisk :=
  ⟨[⟨⟨0, 4294000000, 4293999999⟩, false, none, false⟩,
    ⟨⟨4294000000, 2000001, 4296000000⟩, false, some ['f', 'a', 't', '3', '2'], false⟩,
    ⟨⟨4296000001, 3518037167, 7814037167⟩, false, none, false⟩]⟩

/-- A layout on the sample device: free space, a partition at sectors
10000..30000, free space. -/
def midDisk : PedDisk :=
  ⟨[⟨⟨0, 10000, 9999⟩, false, none, false⟩,
    ⟨⟨10000, 20001, 30000⟩, false, some ['f', 'a', 't', '1', '6'], false⟩,
    ⟨⟨30001, 4164303, 4194303⟩, false, none, false⟩]⟩

/-- The name of the device node in the sample runs. -/
def sampleDevName : List Char := ['/', 'd', 'e', 'v', '/', 's', 'd', 'a']

/-- The file-system names libparted uses. -/
def fat16 : List Char := ['f', 'a', 't', '1', '6']

/-- The name of the FAT32 file-system type. -/
def fat32 : List Char := ['f', 'a', 't', '3', '2']

/-! ## Lemmas on `strtoll` and `get_size` -/

theorem wrap64_eq (x : Int) (h1 : LLONG_MIN ≤ x) (h2 : x ≤ LLONG_MAX) : wrap64 x = x := by
  unfold wrap64
  unfold LLONG_MIN at h1
  unfold LLONG_MAX at h2
  omega

theorem isdigit_not_isspace (c : Char) (h : isdigit c = true) : isspace c = false := by
  unfold isdigit at h
  unfold isspace
  simp only [Bool.and_eq_true, decide_eq_true_eq] at h
  simp only [Bool.or_eq_false_iff, Bool.and_eq_false_iff, beq_eq_false_iff_ne, ne_eq,
    decide_eq_false_iff_not]
  omega

theorem splitSign_digit (c : Char) (cs : List Char) (h : isdigit c = true) :
    splitSign (c :: cs) = (false, c :: cs) := by
  have h1 : c ≠ '-' := by
    rintro rfl
    revert h
    decide
  have h2 : c ≠ '+' := by
    rintro rfl
    revert h
    decide
  unfold splitSign
  split
  · rename_i heq
    injection heq with ha hb
    exact absurd ha h1
  · rename_i heq
    injection heq with ha hb
    exact absurd ha h2
  · rfl

theorem takeWhile_digits_append (ds suf : List Char) (hd : ∀ c ∈ ds, isdigit c = true)
    (hs : ∀ c, suf.head? = some c → isdigit c = false) :
    (ds ++ suf).takeWhile isdigit = ds ∧ (ds ++ suf).dropWhile isdigit = suf := by
  induction ds with
  | nil =>
    cases suf with
    | nil => simp
    | cons c tl =>
      have := hs c rfl
      simp [List.takeWhile, List.dropWhile, this]
  | cons d ds ih =>
    have hd0 : isdigit d = true := hd d (List.mem_cons_self _ _)
    have ih2 := ih (fun c hc => hd c (List.mem_cons_of_mem _ hc))
    simp [List.takeWhile, List.dropWhile, hd0, ih2.1, ih2.2]

/-- On a non-empty run of digits followed by something that does not start
with a digit, `strtoll` reads exactly the digits. -/
theorem strtoll_digits (ds suf : List Char) (hne : ds ≠ [])
    (hd : ∀ c ∈ ds, isdigit c = true)
    (hs : ∀ c, suf.head? = some c → isdigit c = false)
    (hfit : (digitsValue 0 ds : Int) ≤ LLONG_MAX) :
    strtoll (ds ++ suf) = ⟨(digitsValue 0 ds : Int), suf, false⟩ := by
  obtain ⟨d, tl, rfl⟩ := List.exists_cons_of_ne_nil hne
  have hd0 : isdigit d = true := hd d (List.mem_cons_self _ _)
  have hsp : (d :: tl ++ suf).dropWhile isspace = d :: tl ++ suf := by
    simp [List.dropWhile, isdigit_not_isspace d hd0]
  have hsg : splitSign (d :: tl ++ suf) = (false, d :: tl ++ suf) := by
    simpa using splitSign_digit d (tl ++ suf) hd0
  have htd := takeWhile_digits_append (d :: tl) suf hd hs
  have hmin : ¬ ((digitsValue 0 (d :: tl) : Int) < LLONG_MIN) := by
    unfold LLONG_MIN
    omega
  unfold strtoll
  simp only [hsp, hsg, htd.1, htd.2]
  simp [not_lt.mpr hfit, hmin]

theorem suffix_head_not_digit (u : Suffix) :
    ∀ c, u.chars.head? = some c → isdigit c = false := by
  cases u <;> decide

/-- After a successful `strtoll` with a positive value and no `ERANGE`,
`get_size` only looks at the suffix. -/
theorem get_size_of_strtoll (errno : Int) (s suf : List Char) (v : Int)
    (herrno : errno ≠ ERANGE) (hv : 0 < v) (hs : strtoll s = ⟨v, suf, false⟩) :
    get_size errno s =
      match suf with
      | [] => some v
      | c :: tl =>
        if tl.length + 1 = 2 ∧ tl.head? = some 'i' then applyUnit v 1024 c
        else if tl.length + 1 > 1 then none
        else applyUnit v 1000 c := by
  unfold get_size
  simp only [hs]
  have h : ¬ (v ≤ 0 ∨ (if false = true then ERANGE else errno) = ERANGE) := by
    simp
    exact ⟨hv, herrno⟩
  rw [if_neg h]
  cases suf <;> rfl

/-- C1: for a positive decimal number (a non-empty run of digits `ds` with
value `n > 0`) followed by one of the suffixes none, k, M, G, ki, Mi, Gi whose
product with the multiplier fits in the signed 64-bit sector type, `get_size`
returns `n` times the multiplier (1, 1000, 1000^2, 1000^3, 1024, 1024^2,
1024^3); in particular "512M" gives 512000000, "512Mi" gives 536870912 and
"1G" gives the same as "1000M". -/
theorem get_size_suffix_multiplier (errno : Int) (ds : List Char) (u : Suffix)
    (herrno : errno ≠ ERANGE) (hne : ds ≠ []) (hd : ∀ c ∈ ds, isdigit c = true)
    (hpos : 0 < digitsValue 0 ds)
    (hfit : (digitsValue 0 ds : Int) * u.multiplier ≤ LLONG_MAX) :
    get_size errno (ds ++ u.chars) = some ((digitsValue 0 ds : Int) * u.multiplier)
    ∧ get_size errno ['5', '1', '2', 'M'] = some 512000000
    ∧ get_size errno ['5', '1', '2', 'M', 'i'] = some 536870912
    ∧ get_size errno ['1', 'G'] = get_size errno ['1', '0', '0', '0', 'M'] := by
  have hposI : (0 : Int) < (digitsValue 0 ds : Int) := by exact_mod_cast hpos
  have hmul1 : (1 : Int) ≤ u.multiplier := by cases u <;> decide
  have hfit0 : (digitsValue 0 ds : Int) ≤ LLONG_MAX := by
    have : (digitsValue 0 ds : Int) * 1 ≤ (digitsValue 0 ds : Int) * u.multiplier :=
      Int.mul_le_mul_of_nonneg_left hmul1 (le_of_lt hposI)
    linarith
  have hst := strtoll_digits ds u.chars hne hd (suffix_head_not_digit u) hfit0
  have hconc : ∀ (s : List Char) (v : Int), get_size 0 s = some v → get_size errno s = some v := by
    intro s v h
    unfold get_size at h ⊢
    by_cases hr : (strtoll s).erange = true
    · simp [hr] at h
    · simp only [hr] at h ⊢
      by_cases hsz : (strtoll s).value ≤ 0
      · simp [hsz] at h
      · have e0 : ¬ ((strtoll s).value ≤ 0 ∨ (if false = true then ERANGE else (0 : Int)) = ERANGE) := by
          simp [hsz]
          decide
        have e1 : ¬ ((strtoll s).value ≤ 0 ∨ (if false = true then ERANGE else errno) = ERANGE) := by
          simp [hsz]
          exact herrno
        rw [if_neg e0] at h
        rw [if_neg e1]
        exact h
  refine ⟨?_, hconc _ _ (by decide), hconc _ _ (by decide), ?_⟩
  · rw [get_size_of_strtoll errno _ _ _ herrno hposI hst]
    generalize hn : (digitsValue 0 ds : Int) = n at *
    unfold LLONG_MAX at hfit hfit0
    cases u <;> simp only [Suffix.chars, Suffix.multiplier] at hfit ⊢
    · simp
    · simp [applyUnit]
      apply wrap64_eq <;> simp only [LLONG_MIN, LLONG_MAX] <;> omega
    · simp [applyUnit]
      rw [wrap64_eq (n * 1000) (by simp only [LLONG_MIN]; omega) (by simp only [LLONG_MAX]; omega)]
      rw [wrap64_eq _ (by simp only [LLONG_MIN]; omega) (by simp only [LLONG_MAX]; omega)]
      ring
    · simp [applyUnit]
      rw [wrap64_eq (n * 1000) (by simp only [LLONG_MIN]; omega) (by simp only [LLONG_MAX]; omega)]
      rw [wrap64_eq (n * 1000 * 1000) (by simp only [LLONG_MIN]; omega) (by simp only [LLONG_MAX]; omega)]
      rw [wrap64_eq _ (by simp only [LLONG_MIN]; omega) (by simp only [LLONG_MAX]; omega)]
      ring
    · simp [applyUnit]
      apply wrap64_eq <;> simp only [LLONG_MIN, LLONG_MAX] <;> omega
    · simp [applyUnit]
      rw [wrap64_eq (n * 1024) (by simp only [LLONG_MIN]; omega) (by simp only [LLONG_MAX]; omega)]
      rw [wrap64_eq _ (by simp only [LLONG_MIN]; omega) (by simp only [LLONG_MAX]; omega)]
      ring
    · simp [applyUnit]
      rw [wrap64_eq (n * 1024) (by simp only [LLONG_MIN]; omega) (by simp only [LLONG_MAX]; omega)]
      rw [wrap64_eq (n * 1024 * 1024) (by simp only [LLONG_MIN]; omega) (by simp only [LLONG_MAX]; omega)]
      rw [wrap64_eq _ (by simp only [LLONG_MIN]; omega) (by simp only [LLONG_MAX]; omega)]
      ring
  · rw [hconc ['1', 'G'] 1000000000 (by decide), hconc ['1', '0', '0', '0', 'M'] 1000000000 (by decide)]

/-- Witness of C1 at the expression "512Mi". -/
theorem get_size_suffix_multiplier_witness :
    get_size 0 (['5', '1', '2'] ++ Suffix.Mi.chars)
      = some ((digitsValue 0 ['5', '1', '2'] : Int) * Suffix.Mi.multiplier) :=
  (get_size_suffix_multiplier 0 ['5', '1', '2'] Suffix.Mi (by decide) (by decide) (by decide)
    (by decide) (by decide)).1

theorem applyUnit_none (v pk : Int) (c : Char) (hG : c ≠ 'G') (hM : c ≠ 'M') (hk : c ≠ 'k') :
    applyUnit v pk c = none := by
  unfold applyUnit
  split
  · exact absurd rfl hG
  · exact absurd rfl hM
  · exact absurd rfl hk
  · rfl

/-- C8: `get_size` rejects every expression whose leading decimal value (as
read by `strtoll`, 0 when there is no digit) is zero or negative, and every
expression with a positive value followed by a non-empty suffix that is not
one of k, M, G, ki, Mi, Gi: it leaves through `usage(1)` and returns no byte
count.  In particular "0", "-5" and "5X" are rejected. -/
theorem get_size_rejects (errno : Int) (s : List Char)
    (h : (strtoll s).value ≤ 0 ∨
      (0 < (strtoll s).value ∧ (strtoll s).endptr ≠ [] ∧
        ∀ u : Suffix, (strtoll s).endptr ≠ u.chars)) :
    get_size errno s = none
    ∧ get_size errno ['0'] = none
    ∧ get_size errno ['-', '5'] = none
    ∧ get_size errno ['5', 'X'] = none := by
  have hzero : ∀ t : List Char, (strtoll t).value ≤ 0 → get_size errno t = none := by
    intro t ht
    unfold get_size
    simp [ht]
  refine ⟨?_, hzero _ (by decide), hzero _ (by decide), ?_⟩
  · rcases h with h | ⟨hpos, hne, hsuf⟩
    · exact hzero s h
    · unfold get_size
      simp only
      by_cases hc : ((strtoll s).value ≤ 0 ∨
          (if (strtoll s).erange = true then ERANGE else errno) = ERANGE)
      · rw [if_pos hc]
      · rw [if_neg hc]
        obtain ⟨c, tl, heq⟩ := List.exists_cons_of_ne_nil hne
        rw [heq] at hsuf
        rw [heq]
        simp only
        by_cases hi : tl.length + 1 = 2 ∧ tl.head? = some 'i'
        · rw [if_pos hi]
          obtain ⟨hlen, hhead⟩ := hi
          have htl : tl = ['i'] := by
            match tl, hlen, hhead with
            | [x], _, hh =>
              simp at hh
              rw [hh]
          subst htl
          apply applyUnit_none
          · rintro rfl
            exact hsuf Suffix.Gi rfl
          · rintro rfl
            exact hsuf Suffix.Mi rfl
          · rintro rfl
            exact hsuf Suffix.ki rfl
        · rw [if_neg hi]
          by_cases hlen : tl.length + 1 > 1
          · rw [if_pos hlen]
          · rw [if_neg hlen]
            have htl : tl = [] := by
              cases tl with
              | nil => rfl
              | cons x xs => simp at hlen
            subst htl
            apply applyUnit_none
            · rintro rfl
              exact hsuf Suffix.G rfl
            · rintro rfl
              exact hsuf Suffix.M rfl
            · rintro rfl
              exact hsuf Suffix.k rfl
  · unfold get_size
    have h5 : strtoll ['5', 'X'] = ⟨5, ['X'], false⟩ := by decide
    simp only [h5]
    split
    · rfl
    · simp [applyUnit]

/-- Witness of C8 at the expression "5kX": value 5, suffix "kX". -/
theorem get_size_rejects_witness : get_size 0 ['5', 'k', 'X'] = none :=
  (get_size_rejects 0 ['5', 'k', 'X']
    (Or.inr ⟨by decide, by decide, fun u => by cases u <;> decide⟩)).1

/-- C9 (code at the failing input): "20000000000G" has the byte count
2 * 10^19, which exceeds the signed 64-bit maximum, yet `get_size` returns
the wrapped value 1553255926290448384 instead of failing; "10000000000G"
returns a negative value and "17179869184Gi" returns 0. -/
theorem get_size_overflow_wraps :
    LLONG_MAX < (20000000000 : Int) * Suffix.G.multiplier
    ∧ get_size 0 (['2', '0', '0', '0', '0', '0', '0', '0', '0', '0', '0'] ++ Suffix.G.chars)
        = some 1553255926290448384
    ∧ get_size 0 (['1', '0', '0', '0', '0', '0', '0', '0', '0', '0', '0'] ++ Suffix.G.chars)
        = some (-8446744073709551616)
    ∧ get_size 0 (['1', '7', '1', '7', '9', '8', '6', '9', '1', '8', '4'] ++ Suffix.Gi.chars)
        = some 0 := by
  refine ⟨by decide, by decide, by decide, by decide⟩

/-! ## Lemmas on snapping -/

theorem valid_end_nonneg (g : PedGeometry) (h : g.valid) : 0 ≤ g.end_ := by
  obtain ⟨h1, h2, h3⟩ := h
  omega

theorem not_inside_neg_one (range : PedGeometry) (h : range.valid) :
    ped_geometry_test_sector_inside range (-1) = false := by
  obtain ⟨h1, _, _⟩ := h
  unfold ped_geometry_test_sector_inside
  simp only [Bool.and_eq_false_iff, decide_eq_false_iff_not]
  omega

theorem firstInRange_cons (range : PedGeometry) (c : Int) (cs : List Int) (orig : Int) :
    firstInRange range (c :: cs) orig =
      if ped_geometry_test_sector_inside range c then c else firstInRange range cs orig := by
  unfold firstInRange
  by_cases h : ped_geometry_test_sector_inside range c = true
  · simp [List.find?, h]
  · simp [List.find?, h]

theorem firstInRange_nil (range : PedGeometry) (orig : Int) :
    firstInRange range [] orig = orig := rfl

theorem firstInRange_inside (range : PedGeometry) (cs : List Int) (orig : Int)
    (h : ped_geometry_test_sector_inside range orig = true) :
    ped_geometry_test_sector_inside range (firstInRange range cs orig) = true := by
  induction cs with
  | nil => simpa [firstInRange_nil] using h
  | cons c cs ih =>
    rw [firstInRange_cons]
    by_cases hc : ped_geometry_test_sector_inside range c = true
    · simp [hc]
    · simp [hc, ih]

/-- The scan of `try_snap` over candidates followed by the sentinel picks the
first candidate in range, provided the value to replace is in range, no
candidate before the last equals the sentinel and the sentinel is outside the
range. -/
theorem try_snap_spec (m : AssertFail) (sector : Int) (range : PedGeometry)
    (cs : List Int) (last : Int)
    (hin : ped_geometry_test_sector_inside range sector = true)
    (hcs : ∀ c ∈ cs, c ≠ -1)
    (hneg : ped_geometry_test_sector_inside range (-1) = false) (rest : List Int) :
    try_snap m sector range (cs ++ last :: -1 :: rest)
      = Except.ok (firstInRange range (cs ++ [last]) sector) := by
  induction cs with
  | nil =>
    simp only [List.nil_append]
    rw [firstInRange_cons, firstInRange_nil]
    by_cases hl : last = -1
    · subst hl
      simp [try_snap, hneg]
    · by_cases hil : ped_geometry_test_sector_inside range last = true
      · simp [try_snap, snap, hl, hin, hil]
      · simp [try_snap, snap, hl, hin, hil]
  | cons c cs ih =>
    have hc : c ≠ -1 := hcs c (List.mem_cons_self _ _)
    have ih2 := ih (fun x hx => hcs x (List.mem_cons_of_mem _ hx))
    simp only [List.cons_append]
    rw [firstInRange_cons]
    by_cases hic : ped_geometry_test_sector_inside range c = true
    · simp [try_snap, snap, hc, hin, hic]
    · simp only [List.cons_append] at ih2
      simp [try_snap, snap, hc, hin, hic, ih2]

theorem lookup_mem (disk : PedDisk) (sect : Int) (p : PedPartition)
    (h : ped_disk_get_partition_by_sector disk sect = some p) :
    p ∈ disk.part_list ∧ ped_geometry_test_sector_inside p.geom sect = true
      ∧ p.is_extended = false := by
  unfold ped_disk_get_partition_by_sector at h
  have h1 := List.mem_of_find?_eq_some h
  have h2 := List.find?_some h
  simp only [Bool.and_eq_true, Bool.not_eq_true'] at h2
  exact ⟨h1, h2.1, h2.2⟩

/-- The endpoints computed by `snap_to_boundaries` as first-match scans, for
candidates that lie in their ranges and sectors that lie in some region,
when the sentinel reads back as `-1`. -/
theorem snap_endpoints_eq (m : AssertFail) (va : VaRead) (new_geom : PedGeometry)
    (old_geom : Option PedGeometry) (disk : PedDisk) (start_range end_range : PedGeometry)
    (sp ep : PedPartition) (hva : va.sentinel_read)
    (hsr : start_range.valid) (her : end_range.valid)
    (hold : ∀ og, old_geom = some og → og.valid)
    (hdisk : ∀ p ∈ disk.part_list, p.geom.valid)
    (hs : ped_geometry_test_sector_inside start_range new_geom.start = true)
    (he : ped_geometry_test_sector_inside end_range new_geom.end_ = true)
    (hsp : ped_disk_get_partition_by_sector disk new_geom.start = some sp)
    (hep : ped_disk_get_partition_by_sector disk new_geom.end_ = some ep) :
    snap_endpoints m va new_geom old_geom disk start_range end_range
      = Except.ok
          (firstInRange start_range
              (previousEndpoint old_geom PedGeometry.start ++ [sp.geom.start, sp.geom.end_ + 1])
              new_geom.start,
            firstInRange end_range
              (previousEndpoint old_geom PedGeometry.end_ ++ [ep.geom.end_, ep.geom.start - 1])
              new_geom.end_) := by
  have hspv := hdisk sp (lookup_mem disk _ sp hsp).1
  have hepv := hdisk ep (lookup_mem disk _ ep hep).1
  have hsp0 : sp.geom.start ≠ -1 := by
    have := hspv.1
    omega
  have hep0 : ep.geom.end_ ≠ -1 := by
    have := valid_end_nonneg _ hepv
    omega
  have hns := not_inside_neg_one start_range hsr
  have hne := not_inside_neg_one end_range her
  obtain ⟨r1, hr1⟩ := hva.1 new_geom.start new_geom.end_
  unfold snap_endpoints
  simp only [hsp, hep, deref, hr1]
  cases old_geom with
  | none =>
    have e1 := try_snap_spec m new_geom.start start_range [sp.geom.start] (sp.geom.end_ + 1) hs
      (by simpa using hsp0) hns r1
    simp only [List.cons_append, List.nil_append] at e1
    simp only [List.cons_append, List.nil_append, e1, previousEndpoint]
    obtain ⟨r2, hr2⟩ := hva.2 (firstInRange start_range [sp.geom.start, sp.geom.end_ + 1]
      new_geom.start) new_geom.end_
    have e2 := try_snap_spec m new_geom.end_ end_range [ep.geom.end_] (ep.geom.start - 1) he
      (by simpa using hep0) hne r2
    simp only [List.cons_append, List.nil_append] at e2
    simp only [hr2, e2]
  | some og =>
    have hogv := hold og rfl
    have hog0 : og.start ≠ -1 := by
      have := hogv.1
      omega
    have hog1 : og.end_ ≠ -1 := by
      have := valid_end_nonneg _ hogv
      omega
    have e1 := try_snap_spec m new_geom.start start_range [og.start, sp.geom.start]
      (sp.geom.end_ + 1) hs (by simp [hog0, hsp0]) hns r1
    simp only [List.cons_append, List.nil_append] at e1
    simp only [List.cons_append, List.nil_append, e1, previousEndpoint]
    obtain ⟨r2, hr2⟩ := hva.2 (firstInRange start_range
      [og.start, sp.geom.start, sp.geom.end_ + 1] new_geom.start) new_geom.end_
    have e2 := try_snap_spec m new_geom.end_ end_range [og.end_, ep.geom.end_]
      (ep.geom.start - 1) he (by simp [hog1, hep0]) hne r2
    simp only [List.cons_append, List.nil_append] at e2
    simp only [hr2, e2]

/-- With a sentinel that reads back as `-1` the priority order of the
specification holds: each endpoint is the first of the previous endpoint,
the region boundary and the sector across the other boundary that lies in
its range, and the candidate value when none does; when the endpoints are in
order the geometry is set to them. -/
theorem snap_endpoints_priority_of_sentinel (m : AssertFail) (va : VaRead)
    (new_geom : PedGeometry)
    (old_geom : Option PedGeometry) (disk : PedDisk) (start_range end_range : PedGeometry)
    (sp ep : PedPartition) (hva : va.sentinel_read)
    (hsr : start_range.valid) (her : end_range.valid)
    (hold : ∀ og, old_geom = some og → og.valid)
    (hdisk : ∀ p ∈ disk.part_list, p.geom.valid)
    (hs : ped_geometry_test_sector_inside start_range new_geom.start = true)
    (he : ped_geometry_test_sector_inside end_range new_geom.end_ = true)
    (hsp : ped_disk_get_partition_by_sector disk new_geom.start = some sp)
    (hep : ped_disk_get_partition_by_sector disk new_geom.end_ = some ep) :
    snap_endpoints m va new_geom old_geom disk start_range end_range
      = Except.ok
          (firstInRange start_range
              (previousEndpoint old_geom PedGeometry.start ++ [sp.geom.start, sp.geom.end_ + 1])
              new_geom.start,
            firstInRange end_range
              (previousEndpoint old_geom PedGeometry.end_ ++ [ep.geom.end_, ep.geom.start - 1])
              new_geom.end_)
    ∧ (firstInRange start_range
          (previousEndpoint old_geom PedGeometry.start ++ [sp.geom.start, sp.geom.end_ + 1])
          new_geom.start
        ≤ firstInRange end_range
          (previousEndpoint old_geom PedGeometry.end_ ++ [ep.geom.end_, ep.geom.start - 1])
          new_geom.end_ →
      ∃ g, snap_to_boundaries m va new_geom old_geom disk start_range end_range = Except.ok g
        ∧ g.start = firstInRange start_range
            (previousEndpoint old_geom PedGeometry.start ++ [sp.geom.start, sp.geom.end_ + 1])
            new_geom.start
        ∧ g.end_ = firstInRange end_range
            (previousEndpoint old_geom PedGeometry.end_ ++ [ep.geom.end_, ep.geom.start - 1])
            new_geom.end_) := by
  have hpts := snap_endpoints_eq m va new_geom old_geom disk start_range end_range sp ep hva
    hsr her hold hdisk hs he hsp hep
  refine ⟨hpts, ?_⟩
  intro hle
  have hin := firstInRange_inside start_range
    (previousEndpoint old_geom PedGeometry.start ++ [sp.geom.start, sp.geom.end_ + 1])
    new_geom.start hs
  generalize firstInRange start_range
    (previousEndpoint old_geom PedGeometry.start ++ [sp.geom.start, sp.geom.end_ + 1])
    new_geom.start = s1 at *
  generalize firstInRange end_range
    (previousEndpoint old_geom PedGeometry.end_ ++ [ep.geom.end_, ep.geom.start - 1])
    new_geom.end_ = e1 at *
  have hs0 : 0 ≤ s1 := by
    unfold ped_geometry_test_sector_inside at hin
    simp only [Bool.and_eq_true, decide_eq_true_eq] at hin
    have := hsr.1
    omega
  unfold snap_to_boundaries
  simp only [hpts]
  have h1 : ¬ ¬ s1 ≤ e1 := not_not.mpr hle
  rw [if_neg h1]
  unfold ped_geometry_set
  have h2 : ¬ s1 < 0 := by omega
  have h3 : ¬ e1 - s1 + 1 < 1 := by omega
  rw [if_neg h2, if_neg h3]
  refine ⟨_, rfl, rfl, ?_⟩
  simp only
  omega

theorem inside_iff (g : PedGeometry) (x : Int) :
    ped_geometry_test_sector_inside g x = true ↔ g.start ≤ x ∧ x ≤ g.end_ := by
  unfold ped_geometry_test_sector_inside
  simp

theorem valid_start_le_end (g : PedGeometry) (h : g.valid) : g.start ≤ g.end_ := by
  obtain ⟨h1, h2, h3⟩ := h
  omega

/-- Snapping the start a second time, against the region that now contains
it, changes nothing. -/
theorem start_scan_fixed (sr a b : PedGeometry) (prev : List Int) (x : Int)
    (ha : a.valid) (hax : ped_geometry_test_sector_inside a x = true)
    (hshare : ∀ y, ped_geometry_test_sector_inside a y = true →
      ped_geometry_test_sector_inside b y = true → b = a)
    (hb : ped_geometry_test_sector_inside b
      (firstInRange sr (prev ++ [a.start, a.end_ + 1]) x) = true) :
    firstInRange sr (prev ++ [b.start, b.end_ + 1])
        (firstInRange sr (prev ++ [a.start, a.end_ + 1]) x)
      = firstInRange sr (prev ++ [a.start, a.end_ + 1]) x := by
  have hale := valid_start_le_end a ha
  induction prev with
  | nil =>
    simp only [List.nil_append] at hb ⊢
    rw [firstInRange_cons, firstInRange_cons, firstInRange_nil] at hb ⊢
    by_cases h1 : ped_geometry_test_sector_inside sr a.start = true
    · simp only [h1, if_true] at hb ⊢
      have hba : b = a := hshare a.start ((inside_iff _ _).2 ⟨le_refl _, hale⟩) hb
      subst hba
      rw [firstInRange_cons]
      simp [h1]
    · simp only [h1] at hb ⊢
      by_cases h2 : ped_geometry_test_sector_inside sr (a.end_ + 1) = true
      · simp only [h2, if_true] at hb ⊢
        simp only [Bool.false_eq_true, if_false] at hb ⊢
        have hb2 := (inside_iff _ _).1 hb
        have hbs : b.start = a.end_ + 1 := by
          by_contra hne
          have hlt : b.start ≤ a.end_ := by omega
          have hba : b = a := by
            apply hshare (max b.start a.start)
            · rw [inside_iff]
              constructor
              · exact le_max_right _ _
              · exact max_le hlt hale
            · rw [inside_iff]
              constructor
              · exact le_max_left _ _
              · have : max b.start a.start ≤ a.end_ := max_le hlt hale
                omega
          rw [hba] at hb2
          omega
        rw [firstInRange_cons, hbs]
        simp [h1, h2, firstInRange_cons]
      · simp only [h2, Bool.false_eq_true, if_false] at hb ⊢
        have hba : b = a := hshare x hax hb
        subst hba
        rw [firstInRange_cons, firstInRange_cons, firstInRange_nil]
        simp [h1, h2]
  | cons c rest ih =>
    simp only [List.cons_append] at hb ⊢
    rw [firstInRange_cons] at hb ⊢
    by_cases hc : ped_geometry_test_sector_inside sr c = true
    · simp only [hc, if_true]
      rw [firstInRange_cons]
      simp [hc]
    · simp only [hc, Bool.false_eq_true, if_false] at hb ⊢
      rw [firstInRange_cons]
      simp only [hc, Bool.false_eq_true, if_false]
      exact ih hb

/-- Snapping the end a second time, against the region that now contains it,
changes nothing. -/
theorem end_scan_fixed (er a b : PedGeometry) (prev : List Int) (x : Int)
    (ha : a.valid) (hax : ped_geometry_test_sector_inside a x = true)
    (hshare : ∀ y, ped_geometry_test_sector_inside a y = true →
      ped_geometry_test_sector_inside b y = true → b = a)
    (hb : ped_geometry_test_sector_inside b
      (firstInRange er (prev ++ [a.end_, a.start - 1]) x) = true) :
    firstInRange er (prev ++ [b.end_, b.start - 1])
        (firstInRange er (prev ++ [a.end_, a.start - 1]) x)
      = firstInRange er (prev ++ [a.end_, a.start - 1]) x := by
  have hale := valid_start_le_end a ha
  induction prev with
  | nil =>
    simp only [List.nil_append] at hb ⊢
    rw [firstInRange_cons, firstInRange_cons, firstInRange_nil] at hb ⊢
    by_cases h1 : ped_geometry_test_sector_inside er a.end_ = true
    · simp only [h1, if_true] at hb ⊢
      have hba : b = a := hshare a.end_ ((inside_iff _ _).2 ⟨hale, le_refl _⟩) hb
      subst hba
      rw [firstInRange_cons]
      simp [h1]
    · simp only [h1] at hb ⊢
      by_cases h2 : ped_geometry_test_sector_inside er (a.start - 1) = true
      · simp only [h2, if_true] at hb ⊢
        simp only [Bool.false_eq_true, if_false] at hb ⊢
        have hb2 := (inside_iff _ _).1 hb
        have hbe : b.end_ = a.start - 1 := by
          by_contra hne
          have hlt : a.start ≤ b.end_ := by omega
          have hba : b = a := by
            apply hshare (min b.end_ a.end_)
            · rw [inside_iff]
              constructor
              · exact le_min hlt hale
              · exact min_le_right _ _
            · rw [inside_iff]
              constructor
              · have : a.start ≤ min b.end_ a.end_ := le_min hlt hale
                omega
              · exact min_le_left _ _
          rw [hba] at hb2
          omega
        rw [firstInRange_cons, hbe]
        simp [h1, h2, firstInRange_cons]
      · simp only [h2, Bool.false_eq_true, if_false] at hb ⊢
        have hba : b = a := hshare x hax hb
        subst hba
        rw [firstInRange_cons, firstInRange_cons, firstInRange_nil]
        simp [h1, h2]
  | cons c rest ih =>
    simp only [List.cons_append] at hb ⊢
    rw [firstInRange_cons] at hb ⊢
    by_cases hc : ped_geometry_test_sector_inside er c = true
    · simp only [hc, if_true]
      rw [firstInRange_cons]
      simp [hc]
    · simp only [hc, Bool.false_eq_true, if_false] at hb ⊢
      rw [firstInRange_cons]
      simp only [hc, Bool.false_eq_true, if_false]
      exact ih hb

/-- With the assertion action, a scan whose sector lies outside the range
changes nothing: it ends at the first `-1` it reads, or runs off the list. -/
theorem try_snap_outside_action_cases (sector : Int) (range : PedGeometry) (cs : List Int)
    (h : ped_geometry_test_sector_inside range sector = false) :
    try_snap AssertFail.action sector range cs = Except.ok sector
      ∨ try_snap AssertFail.action sector range cs = Except.error Fault.va_overrun := by
  induction cs with
  | nil =>
    right
    rfl
  | cons c cs ih =>
    by_cases hc : c = -1
    · left
      simp [try_snap, hc]
    · simpa [try_snap, snap, hc, h] using ih

theorem try_snap_outside_action (sector : Int) (range : PedGeometry) (cs rest : List Int)
    (h : ped_geometry_test_sector_inside range sector = false) :
    try_snap AssertFail.action sector range (cs ++ -1 :: rest) = Except.ok sector := by
  induction cs with
  | nil => simp [try_snap]
  | cons c cs ih =>
    by_cases hc : c = -1
    · simp [try_snap, hc]
    · simp only [List.cons_append]
      simpa [try_snap, snap, hc, h] using ih

theorem try_snap_outside_abort (sector : Int) (range : PedGeometry) (c : Int) (cs : List Int)
    (h : ped_geometry_test_sector_inside range sector = false) (hc : c ≠ -1) :
    try_snap AssertFail.abort sector range (c :: cs) = Except.error Fault.assertion := by
  simp [try_snap, snap, hc, h]

/-- One endpoint: when the scan from `x` over the candidates `c1, c2` gave
`s`, the scan from `s` over the candidates `d1, d2` of the region that now
contains `s` gives `s` again. -/
theorem try_snap_fixed (m : AssertFail) (range : PedGeometry) (prev : List Int)
    (x s c1 c2 d1 d2 : Int) (r1 r2 : List Int)
    (hr : range.valid) (hprev : ∀ c ∈ prev, c ≠ -1) (hc1 : c1 ≠ -1) (hd1 : d1 ≠ -1)
    (hfix : ped_geometry_test_sector_inside range x = true →
      s = firstInRange range (prev ++ [c1, c2]) x →
      firstInRange range (prev ++ [d1, d2]) s = s)
    (h : try_snap m x range (prev ++ c1 :: c2 :: -1 :: r1) = Except.ok s) :
    try_snap m s range (prev ++ d1 :: d2 :: -1 :: r2) = Except.ok s := by
  have hneg := not_inside_neg_one range hr
  have hl1 : prev ++ c1 :: c2 :: -1 :: r1 = (prev ++ [c1]) ++ c2 :: -1 :: r1 := by simp
  have hl2 : prev ++ d1 :: d2 :: -1 :: r2 = (prev ++ [d1]) ++ d2 :: -1 :: r2 := by simp
  have hl3 : (prev ++ [c1]) ++ [c2] = prev ++ [c1, c2] := by simp
  have hl4 : (prev ++ [d1]) ++ [d2] = prev ++ [d1, d2] := by simp
  have hl5 : prev ++ d1 :: d2 :: -1 :: r2 = (prev ++ [d1, d2]) ++ -1 :: r2 := by simp
  have hl6 : prev ++ c1 :: c2 :: -1 :: r1 = (prev ++ [c1, c2]) ++ -1 :: r1 := by simp
  have hp1 : ∀ c ∈ prev ++ [c1], c ≠ -1 := by
    intro c hc
    rcases List.mem_append.1 hc with hc | hc
    · exact hprev c hc
    · simp at hc
      rw [hc]
      exact hc1
  have hp2 : ∀ c ∈ prev ++ [d1], c ≠ -1 := by
    intro c hc
    rcases List.mem_append.1 hc with hc | hc
    · exact hprev c hc
    · simp at hc
      rw [hc]
      exact hd1
  by_cases hin : ped_geometry_test_sector_inside range x = true
  · rw [hl1, try_snap_spec m x range _ c2 hin hp1 hneg r1, hl3] at h
    have hs : s = firstInRange range (prev ++ [c1, c2]) x := by
      injection h with h
      exact h.symm
    have hins : ped_geometry_test_sector_inside range s = true := by
      rw [hs]
      exact firstInRange_inside _ _ _ hin
    rw [hl2, try_snap_spec m s range _ d2 hins hp2 hneg r2, hl4, hfix hin hs]
  · have hout : ped_geometry_test_sector_inside range x = false := by simpa using hin
    cases m with
    | abort =>
      exfalso
      cases prev with
      | nil =>
        simp only [List.nil_append] at h
        rw [try_snap_outside_abort x range c1 _ hout hc1] at h
        cases h
      | cons p ps =>
        simp only [List.cons_append] at h
        rw [try_snap_outside_abort x range p _ hout (hprev p (List.mem_cons_self _ _))] at h
        cases h
    | action =>
      rw [hl6, try_snap_outside_action x range _ r1 hout] at h
      have hs : s = x := by
        injection h with h
        exact h.symm
      subst hs
      rw [hl5]
      exact try_snap_outside_action s range _ r2 hout

theorem snap_endpoints_unfold (m : AssertFail) (va : VaRead) (g : PedGeometry)
    (old_geom : Option PedGeometry) (disk : PedDisk) (sr er : PedGeometry) :
    snap_endpoints m va g old_geom disk sr er =
      match deref (ped_disk_get_partition_by_sector disk g.start) with
      | Except.error f => Except.error f
      | Except.ok sp =>
        match try_snap m g.start sr
            (previousEndpoint old_geom PedGeometry.start
              ++ sp.geom.start :: (sp.geom.end_ + 1) :: va.start_call g.start g.end_) with
        | Except.error f => Except.error f
        | Except.ok s =>
          match deref (ped_disk_get_partition_by_sector disk g.end_) with
          | Except.error f => Except.error f
          | Except.ok ep =>
            match try_snap m g.end_ er
                (previousEndpoint old_geom PedGeometry.end_
                  ++ ep.geom.end_ :: (ep.geom.start - 1) :: va.end_call s g.end_) with
            | Except.error f => Except.error f
            | Except.ok e => Except.ok (s, e) := by
  cases old_geom <;> rfl

/-- The run of `snap_endpoints` succeeds with `(s, e)` exactly when both
sectors lie in a region and the two scans give `s` and `e`. -/
theorem snap_endpoints_ok_iff (m : AssertFail) (va : VaRead) (g : PedGeometry)
    (old_geom : Option PedGeometry) (disk : PedDisk) (sr er : PedGeometry) (s e : Int) :
    snap_endpoints m va g old_geom disk sr er = Except.ok (s, e) ↔
      ∃ sp ep, ped_disk_get_partition_by_sector disk g.start = some sp
        ∧ ped_disk_get_partition_by_sector disk g.end_ = some ep
        ∧ try_snap m g.start sr
            (previousEndpoint old_geom PedGeometry.start
              ++ sp.geom.start :: (sp.geom.end_ + 1) :: va.start_call g.start g.end_)
            = Except.ok s
        ∧ try_snap m g.end_ er
            (previousEndpoint old_geom PedGeometry.end_
              ++ ep.geom.end_ :: (ep.geom.start - 1) :: va.end_call s g.end_)
            = Except.ok e := by
  rw [snap_endpoints_unfold]
  constructor
  · intro h
    cases hsp : ped_disk_get_partition_by_sector disk g.start with
    | none => simp [hsp, deref] at h
    | some sp =>
      simp only [hsp, deref] at h
      cases ht1 : try_snap m g.start sr
          (previousEndpoint old_geom PedGeometry.start
            ++ sp.geom.start :: (sp.geom.end_ + 1) :: va.start_call g.start g.end_) with
      | error f => simp [ht1] at h
      | ok s1 =>
        simp only [ht1] at h
        cases hep : ped_disk_get_partition_by_sector disk g.end_ with
        | none => simp [hep] at h
        | some ep =>
          simp only [hep] at h
          cases ht2 : try_snap m g.end_ er
              (previousEndpoint old_geom PedGeometry.end_
                ++ ep.geom.end_ :: (ep.geom.start - 1) :: va.end_call s1 g.end_) with
          | error f => simp [ht2] at h
          | ok e1 =>
            simp only [ht2] at h
            injection h with h
            injection h with h1 h2
            subst h1
            subst h2
            exact ⟨sp, ep, rfl, rfl, ht1, ht2⟩
  · rintro ⟨sp, ep, hsp, hep, ht1, ht2⟩
    simp only [hsp, hep, deref, ht1, ht2]

theorem try_snap_result (m : AssertFail) (range : PedGeometry) (cs : List Int) (x s : Int)
    (h : try_snap m x range cs = Except.ok s) :
    s = x ∨ ped_geometry_test_sector_inside range s = true := by
  induction cs with
  | nil =>
    simp only [try_snap] at h
    cases h
  | cons c cs ih =>
    unfold try_snap at h
    by_cases hc : c = -1
    · rw [if_pos hc] at h
      left
      injection h with h
      exact h.symm
    · rw [if_neg hc] at h
      unfold snap at h
      by_cases hx : ped_geometry_test_sector_inside range x = true
      · by_cases hn : ped_geometry_test_sector_inside range c = true
        · simp only [hx, hn, Bool.not_true, Bool.false_eq_true, if_false] at h
          right
          injection h with h
          rw [← h]
          exact hn
        · simp only [hx, hn, Bool.not_true, Bool.false_eq_true, if_false, Bool.not_false,
            if_true] at h
          exact ih h
      · cases m with
        | abort => simp [hx] at h
        | action =>
          simp only [hx, Bool.not_false, if_true] at h
          exact ih h

/-- The endpoints of a snapped geometry are a fixed point of the endpoint
computation, when the sentinel reads back as `-1`. -/
theorem snap_endpoints_fixed (m : AssertFail) (va : VaRead) (g g2 : PedGeometry)
    (old_geom : Option PedGeometry) (disk : PedDisk) (sr er : PedGeometry) (s e : Int)
    (hva : va.sentinel_read)
    (hsr : sr.valid) (her : er.valid)
    (hold : ∀ og, old_geom = some og → og.valid)
    (hdisk : ∀ p ∈ disk.part_list, p.geom.valid)
    (hdisj : disk.disjoint)
    (hcov : ∀ x, ped_geometry_test_sector_inside sr x = true
      ∨ ped_geometry_test_sector_inside er x = true →
      (ped_disk_get_partition_by_sector disk x).isSome = true)
    (hg2s : g2.start = s) (hg2e : g2.end_ = e)
    (h : snap_endpoints m va g old_geom disk sr er = Except.ok (s, e)) :
    snap_endpoints m va g2 old_geom disk sr er = Except.ok (s, e) := by
  rw [snap_endpoints_ok_iff] at h ⊢
  obtain ⟨sp, ep, hsp, hep, ht1, ht2⟩ := h
  rw [hg2s, hg2e]
  obtain ⟨a1, ha1⟩ := hva.1 g.start g.end_
  obtain ⟨a2, ha2⟩ := hva.2 s g.end_
  obtain ⟨b1, hb1⟩ := hva.1 s e
  obtain ⟨b2, hb2⟩ := hva.2 s e
  rw [ha1] at ht1
  rw [ha2] at ht2
  rw [hb1, hb2]
  have hprevS : ∀ c ∈ previousEndpoint old_geom PedGeometry.start, c ≠ -1 := by
    intro c hc
    cases old_geom with
    | none => simp [previousEndpoint] at hc
    | some og =>
      simp [previousEndpoint] at hc
      have := (hold og rfl).1
      omega
  have hprevE : ∀ c ∈ previousEndpoint old_geom PedGeometry.end_, c ≠ -1 := by
    intro c hc
    cases old_geom with
    | none => simp [previousEndpoint] at hc
    | some og =>
      simp [previousEndpoint] at hc
      have := valid_end_nonneg og (hold og rfl)
      omega
  have hsome_s : ∃ sp2, ped_disk_get_partition_by_sector disk s = some sp2 := by
    rcases try_snap_result m sr _ _ _ ht1 with h1 | h1
    · exact ⟨sp, by rw [h1]; exact hsp⟩
    · exact Option.isSome_iff_exists.1 (hcov s (Or.inl h1))
  have hsome_e : ∃ ep2, ped_disk_get_partition_by_sector disk e = some ep2 := by
    rcases try_snap_result m er _ _ _ ht2 with h1 | h1
    · exact ⟨ep, by rw [h1]; exact hep⟩
    · exact Option.isSome_iff_exists.1 (hcov e (Or.inr h1))
  obtain ⟨sp2, hsp2⟩ := hsome_s
  obtain ⟨ep2, hep2⟩ := hsome_e
  obtain ⟨hspm, hspi, hspx⟩ := lookup_mem disk _ sp hsp
  obtain ⟨hepm, hepi, hepx⟩ := lookup_mem disk _ ep hep
  obtain ⟨hsp2m, hsp2i, hsp2x⟩ := lookup_mem disk _ sp2 hsp2
  obtain ⟨hep2m, hep2i, hep2x⟩ := lookup_mem disk _ ep2 hep2
  refine ⟨sp2, ep2, hsp2, hep2, ?_, ?_⟩
  · apply try_snap_fixed m sr _ g.start s sp.geom.start (sp.geom.end_ + 1) _ _ a1 b1 hsr hprevS
      _ _ _ ht1
    · have := (hdisk sp hspm).1
      omega
    · have := (hdisk sp2 hsp2m).1
      omega
    · intro _ hs
      have key := start_scan_fixed sr sp.geom sp2.geom
        (previousEndpoint old_geom PedGeometry.start) g.start (hdisk sp hspm) hspi
        (fun y hy1 hy2 => hdisj sp hspm sp2 hsp2m hspx hsp2x y hy1 hy2)
        (by rw [← hs]; exact hsp2i)
      rw [← hs] at key
      exact key
  · apply try_snap_fixed m er _ g.end_ e ep.geom.end_ (ep.geom.start - 1) _ _ a2 b2 her hprevE
      _ _ _ ht2
    · have := valid_end_nonneg _ (hdisk ep hepm)
      omega
    · have := valid_end_nonneg _ (hdisk ep2 hep2m)
      omega
    · intro _ hs
      have key := end_scan_fixed er ep.geom ep2.geom
        (previousEndpoint old_geom PedGeometry.end_) g.end_ (hdisk ep hepm) hepi
        (fun y hy1 hy2 => hdisj ep hepm ep2 hep2m hepx hep2x y hy1 hy2)
        (by rw [← hs]; exact hep2i)
      rw [← hs] at key
      exact key

/-- With a sentinel that reads back as `-1` boundary snapping is idempotent:
on a layout of valid regions of which no two share a sector and which covers
the two ranges, applying `snap_to_boundaries` to the geometry it returned
gives that geometry again. -/
theorem snap_to_boundaries_idempotent_of_sentinel (m : AssertFail) (va : VaRead)
    (g g1 : PedGeometry)
    (old_geom : Option PedGeometry) (disk : PedDisk) (sr er : PedGeometry)
    (hva : va.sentinel_read)
    (hsr : sr.valid) (her : er.valid)
    (hold : ∀ og, old_geom = some og → og.valid)
    (hdisk : ∀ p ∈ disk.part_list, p.geom.valid)
    (hdisj : disk.disjoint)
    (hcov : ∀ x, ped_geometry_test_sector_inside sr x = true
      ∨ ped_geometry_test_sector_inside er x = true →
      (ped_disk_get_partition_by_sector disk x).isSome = true)
    (h : snap_to_boundaries m va g old_geom disk sr er = Except.ok g1) :
    snap_to_boundaries m va g1 old_geom disk sr er = Except.ok g1 := by
  unfold snap_to_boundaries at h
  cases hse : snap_endpoints m va g old_geom disk sr er with
  | error f => simp [hse] at h
  | ok pr =>
    obtain ⟨s, e⟩ := pr
    simp only [hse] at h
    by_cases hle : s ≤ e
    · have hnn : ¬ ¬ s ≤ e := not_not.mpr hle
      rw [if_neg hnn] at h
      unfold ped_geometry_set at h
      by_cases hs0 : s < 0
      · simp [hs0] at h
      · have hlen : ¬ e - s + 1 < 1 := by omega
        simp only [hs0, hlen, if_false] at h
        injection h with h
        have hg1s : g1.start = s := by rw [← h]
        have hg1e : g1.end_ = e := by
          rw [← h]
          simp only
          omega
        have hfix := snap_endpoints_fixed m va g g1 old_geom disk sr er s e hva hsr her hold
          hdisk hdisj hcov hg1s hg1e hse
        unfold snap_to_boundaries
        simp only [hfix]
        rw [if_neg hnn]
        unfold ped_geometry_set
        simp only [hs0, hlen, if_false]
        rw [h]
    · rw [if_pos hle] at h
      cases m with
      | abort => simp at h
      | action =>
        simp only at h
        injection h with h
        subst h
        unfold snap_to_boundaries
        simp only [hse]
        rw [if_pos hle]

/-! ## Lemmas on the stages of `main` -/

theorem quietFor_iff (p : Call → Bool) (tr : List Call) :
    quietFor p tr = true ↔ ∀ c ∈ tr, p c = false := by
  unfold quietFor
  simp

theorem quietFor_append (p : Call → Bool) (a b : List Call) :
    quietFor p (a ++ b) = (quietFor p a && quietFor p b) := by
  unfold quietFor
  simp

theorem quietFor_nil (p : Call → Bool) : quietFor p [] = true := rfl

theorem quietFor_cons (p : Call → Bool) (c : Call) (tr : List Call) :
    quietFor p (c :: tr) = (!p c && quietFor p tr) := by
  unfold quietFor
  simp

theorem main_open_stop (env : Env) (opts : Opts) (r : Run)
    (h : main_open env opts = Step.stop r) :
    r.exit = Exit.returned 1
      ∧ quietFor Call.isWrite r.trace = true
      ∧ quietFor Call.isFat32Min r.trace = true
      ∧ (Call.ped_partition_is_busy true ∈ r.trace →
          Call.ped_exception_throw Msg.busy ∈ r.trace) := by
  unfold main_open at h
  repeat' split at h
  all_goals first
    | (injection h with h
       subst h
       try unfold partition_warn_busy
       try split
       all_goals simp [after, done, quietFor, Call.isWrite, Call.isFat32Min])
    | cases h

theorem main_open_go (env : Env) (opts : Opts) (tr : List Call) (dev : PedDevice)
    (disk : PedDisk) (part : PedPartition) (name : List Char)
    (h : main_open env opts = Step.go tr (dev, disk, part, name)) :
    env.ped_device_get = some dev ∧ env.ped_disk_new = some disk
      ∧ env.ped_disk_get_partition = some part ∧ part.fs_type_name = some name
      ∧ is_fat_name name = true ∧ part.is_busy = false
      ∧ tr = [Call.ped_device_get, Call.ped_device_open, Call.ped_disk_new,
          Call.ped_disk_get_partition, Call.ped_partition_is_busy false] := by
  unfold main_open at h
  repeat' split at h
  all_goals first
    | (cases h
       done)
    | (cases h
       by_cases hp : part.is_busy = true <;> simp_all [partition_warn_busy])

theorem main_info_quiet (env : Env) (part : PedPartition) :
    quietFor Call.isWrite (main_info env part).trace = true
      ∧ quietFor Call.isBusyReport (main_info env part).trace = true
      ∧ quietFor Call.isFat32Min (main_info env part).trace = true := by
  unfold main_info
  repeat' split
  all_goals simp [after, done, quietFor, Call.isWrite, Call.isFat32Min, Call.isBusyReport]

theorem main_end_range_stop (env : Env) (opts : Opts) (dev : PedDevice) (part : PedPartition)
    (r : Run) (h : main_end_range env opts dev part = Step.stop r) :
    r.exit ≠ Exit.returned 0
      ∧ quietFor Call.isWrite r.trace = true
      ∧ quietFor Call.isBusyReport r.trace = true
      ∧ quietFor Call.isFat32Min r.trace = true := by
  unfold main_end_range at h
  simp only at h
  repeat' split at h
  all_goals first
    | (injection h with h
       subst h
       simp [after, done, quietFor, Call.isWrite, Call.isFat32Min, Call.isBusyReport])
    | cases h

theorem main_end_range_go (env : Env) (opts : Opts) (dev : PedDevice) (part : PedPartition)
    (tr : List Call) (x : Int × PedGeometry)
    (h : main_end_range env opts dev part = Step.go tr x) :
    quietFor Call.isWrite tr = true
      ∧ quietFor Call.isBusyReport tr = true
      ∧ quietFor Call.isFat32Min tr = true := by
  unfold main_end_range at h
  simp only at h
  repeat' split at h
  all_goals first
    | (injection h with h1 h2
       subst h1
       simp [quietFor, Call.isWrite, Call.isFat32Min, Call.isBusyReport])
    | cases h

theorem main_plan_stop (m : AssertFail) (env : Env) (opts : Opts) (dev : PedDevice)
    (disk : PedDisk) (part : PedPartition) (r : Run)
    (h : main_plan m env opts dev disk part = Step.stop r) :
    r.exit ≠ Exit.returned 0
      ∧ quietFor Call.isWrite r.trace = true
      ∧ quietFor Call.isBusyReport r.trace = true
      ∧ quietFor Call.isFat32Min r.trace = true := by
  unfold main_plan at h
  simp only at h
  split at h
  · injection h with h
    subst h
    simp [quietFor]
  · injection h with h
    subst h
    simp [done, quietFor]
  · split at h
    · rename_i r2 heq
      injection h with h
      subst h
      exact main_end_range_stop env opts dev part _ heq
    · rename_i tr e re heq
      have hq := main_end_range_go env opts dev part _ _ heq
      repeat' split at h
      all_goals first
        | (injection h with h
           subst h
           simp [after, done, hq.1, hq.2.1, hq.2.2, quietFor_append, quietFor_nil])
        | cases h

theorem main_plan_go (m : AssertFail) (env : Env) (opts : Opts) (dev : PedDevice)
    (disk : PedDisk) (part : PedPartition) (tr : List Call) (plan : Plan)
    (h : main_plan m env opts dev disk part = Step.go tr plan) :
    quietFor Call.isWrite tr = true
      ∧ quietFor Call.isBusyReport tr = true
      ∧ quietFor Call.isFat32Min tr = true
      ∧ plan.old_geom = part.geom := by
  unfold main_plan at h
  simp only at h
  split at h
  · cases h
  · cases h
  · split at h
    · cases h
    · rename_i tr2 e re heq
      have hq := main_end_range_go env opts dev part _ _ heq
      repeat' split at h
      all_goals first
        | (injection h with h1 h2
           subst h1 h2
           exact ⟨hq.1, hq.2.1, hq.2.2, rfl⟩)
        | cases h

theorem main_check_stop (env : Env) (opts : Opts) (dev : PedDevice) (part : PedPartition)
    (name : List Char) (plan : Plan) (r : Run)
    (h : main_check env opts dev part name plan = Step.stop r) :
    r.exit = Exit.returned 1
      ∧ quietFor Call.isWrite r.trace = true
      ∧ quietFor Call.isBusyReport r.trace = true := by
  unfold main_check at h
  repeat' split at h
  all_goals first
    | (injection h with h
       subst h
       simp [after, done, quietFor, Call.isWrite, Call.isBusyReport])
    | cases h

theorem main_check_go (env : Env) (opts : Opts) (dev : PedDevice) (part : PedPartition)
    (name : List Char) (plan : Plan) (tr : List Call) (c : PedConstraint)
    (h : main_check env opts dev part name plan = Step.go tr c) :
    tr = [Call.ped_file_system_open part.geom, Call.ped_file_system_get_resize_constraint,
        Call.ped_constraint_intersect]
      ∧ env.ped_file_system_open part.geom = true
      ∧ constraint_intersect_and_destroy env env.ped_file_system_get_resize_constraint
          (some (constraint_from_start_end dev plan.range_start plan.range_end)) = some c
      ∧ ¬ (is_fat32_name name = true ∧ opts.size < FAT32MIN) := by
  unfold main_check at h
  repeat' split at h
  all_goals first
    | (cases h
       done)
    | (cases h
       simp_all)

theorem main_finish_quiet (dev : PedDevice) :
    quietFor Call.isBusyReport (main_finish dev).trace = true
      ∧ quietFor Call.isFat32Min (main_finish dev).trace = true := by
  unfold main_finish
  split <;> simp [after, done, quietFor, Call.isBusyReport, Call.isFat32Min]

theorem main_execute_quiet (env : Env) (opts : Opts) (dev : PedDevice) (part : PedPartition)
    (plan : Plan) (c : PedConstraint) :
    quietFor Call.isBusyReport (main_execute env opts dev part plan c).trace = true
      ∧ quietFor Call.isFat32Min (main_execute env opts dev part plan c).trace = true := by
  have hf := main_finish_quiet dev
  unfold main_execute
  repeat' split
  all_goals simp [after, done, quietFor_append, quietFor_cons, quietFor_nil, hf.1, hf.2,
    Call.isBusyReport, Call.isFat32Min]

/-- The five ways a run of `main` can go. -/
theorem main_cases (m : AssertFail) (env : Env) (opts : Opts) :
    (∃ r, main_open env opts = Step.stop r ∧ main m env opts = r)
    ∨ ∃ tr dev disk part name, main_open env opts = Step.go tr (dev, disk, part, name)
      ∧ ((opts.info = true ∧ main m env opts = after tr (main_info env part))
        ∨ (opts.info = false ∧ ∃ r, main_plan m env opts dev disk part = Step.stop r
            ∧ main m env opts = after tr r)
        ∨ (opts.info = false ∧ ∃ tr2 plan, main_plan m env opts dev disk part = Step.go tr2 plan
            ∧ ((∃ r, main_check env opts dev part name plan = Step.stop r
                  ∧ main m env opts = after tr (after tr2 r))
              ∨ ∃ tr3 c, main_check env opts dev part name plan = Step.go tr3 c
                  ∧ main m env opts
                    = after tr (after tr2 (after tr3 (main_execute env opts dev part plan c)))))) := by
  unfold main
  cases hop : main_open env opts with
  | stop r =>
    left
    exact ⟨r, rfl, rfl⟩
  | go tr a =>
    obtain ⟨dev, disk, part, name⟩ := a
    right
    refine ⟨tr, dev, disk, part, name, rfl, ?_⟩
    simp only
    by_cases hi : opts.info = true
    · left
      simp [hi]
    · right
      have hi2 : opts.info = false := by simpa using hi
      simp only [hi2]
      cases hpl : main_plan m env opts dev disk part with
      | stop r =>
        left
        exact ⟨trivial, r, rfl, by simp [hpl]⟩
      | go tr2 plan =>
        right
        refine ⟨trivial, tr2, plan, rfl, ?_⟩
        cases hck : main_check env opts dev part name plan with
        | stop r =>
          left
          exact ⟨r, rfl, by simp [hpl, hck]⟩
        | go tr3 c =>
          right
          exact ⟨tr3, c, rfl, by simp [hpl, hck]⟩

theorem open_trace_quiet_busy :
    quietFor Call.isBusyReport [Call.ped_device_get, Call.ped_device_open, Call.ped_disk_new,
      Call.ped_disk_get_partition, Call.ped_partition_is_busy false] = true := by
  decide

/-- A run that got past the busy guard holds no "busy" answer. -/
theorem main_past_guard_quiet (m : AssertFail) (env : Env) (opts : Opts) (tr : List Call)
    (a : PedDevice × PedDisk × PedPartition × List Char)
    (hop : main_open env opts = Step.go tr a) :
    quietFor Call.isBusyReport (main m env opts).trace = true := by
  obtain ⟨dev, disk, part, name⟩ := a
  have htr := (main_open_go env opts tr dev disk part name hop).2.2.2.2.2.2
  have hq0 := open_trace_quiet_busy
  rw [← htr] at hq0
  rcases main_cases m env opts with ⟨r, h1, _⟩ | ⟨tr1, dev1, disk1, part1, name1, h1, hrest⟩
  · rw [hop] at h1
    cases h1
  · rw [hop] at h1
    injection h1 with h1 h2
    injection h2 with h2 h3
    injection h3 with h3 h4
    injection h4 with h4 h5
    subst h1 h2 h3 h4 h5
    rcases hrest with ⟨_, hm⟩ | ⟨_, r, hpl, hm⟩ | ⟨_, tr2, plan, hpl, hck⟩
    · rw [hm]
      simp [after, quietFor_append, hq0, (main_info_quiet env part).2.1]
    · rw [hm]
      simp [after, quietFor_append, hq0, (main_plan_stop m env opts dev disk part r hpl).2.2.1]
    · have hq2 := (main_plan_go m env opts dev disk part tr2 plan hpl).2.1
      rcases hck with ⟨r, hck, hm⟩ | ⟨tr3, c, hck, hm⟩
      · rw [hm]
        simp [after, quietFor_append, hq0, hq2,
          (main_check_stop env opts dev part name plan r hck).2.2]
      · have htr3 := (main_check_go env opts dev part name plan tr3 c hck).1
        rw [hm, htr3]
        simp [after, quietFor_append, quietFor_cons, hq0, hq2, Call.isBusyReport,
          (main_execute_quiet env opts dev part plan c).1]

/-- With a busy partition `main_open` never lets the run go on. -/
theorem main_open_busy_stop (env : Env) (opts : Opts) (part : PedPartition)
    (hpart : env.ped_disk_get_partition = some part) (hbusy : part.is_busy = true) :
    ∃ r, main_open env opts = Step.stop r := by
  cases hop : main_open env opts with
  | stop r => exact ⟨r, rfl⟩
  | go tr a =>
    exfalso
    obtain ⟨dev, disk, part1, name⟩ := a
    obtain ⟨_, _, hpart1, _, _, hb, _⟩ := main_open_go env opts tr dev disk part1 name hop
    rw [hpart] at hpart1
    injection hpart1 with hpart1
    subst hpart1
    rw [hbusy] at hb
    cases hb

/-- C3: busy guard.  When the target partition is busy, every run, in resize
mode as in info mode, ends with status 1 and its trace holds no write call
(no `ped_disk_set_partition_geom`, no `ped_file_system_resize`, no
`ped_partition_set_system`, no commit); when the run gets as far as the
partition (arguments given, device and disk opened, a FAT file system) it
asks `ped_partition_is_busy`, raises the "partition is being used" exception
and stops right there; and a trace that holds the answer "busy" holds that
exception. -/
theorem busy_guard_no_write (m : AssertFail) (env : Env) (opts : Opts) (part : PedPartition)
    (hpart : env.ped_disk_get_partition = some part) (hbusy : part.is_busy = true) :
    (main m env opts).exit = Exit.returned 1
      ∧ (∀ c ∈ (main m env opts).trace, c.isWrite = false)
      ∧ (∀ dev disk name, opts.dev.isNone = false → ¬ (opts.size = 0 ∧ opts.info = false) →
          env.ped_device_get = some dev → env.ped_device_open = true →
          env.ped_disk_new = some disk → part.fs_type_name = some name →
          is_fat_name name = true →
          main m env opts
            = ⟨[Call.ped_device_get, Call.ped_device_open, Call.ped_disk_new,
                Call.ped_disk_get_partition, Call.ped_partition_is_busy true,
                Call.ped_exception_throw Msg.busy, Call.ped_disk_destroy],
              Exit.returned 1⟩)
      ∧ (Call.ped_partition_is_busy true ∈ (main m env opts).trace →
          Call.ped_exception_throw Msg.busy ∈ (main m env opts).trace) := by
  obtain ⟨r, hop⟩ := main_open_busy_stop env opts part hpart hbusy
  have hm : main m env opts = r := by
    unfold main
    rw [hop]
  obtain ⟨h1, h2, _, h4⟩ := main_open_stop env opts r hop
  refine ⟨by rw [hm]; exact h1, by rw [hm]; exact (quietFor_iff _ _).1 h2, ?_,
    by rw [hm]; exact h4⟩
  intro dev disk name hdev hargs hget hopen hdisk hname hfat
  unfold main main_open
  simp [hdev, hargs, hget, hopen, hdisk, hpart, hname, hfat, partition_warn_busy, hbusy,
    after, done]

/-- Witness of C3: the sample FAT16 partition reported busy, 600 MiB requested
in resize mode. -/
theorem busy_guard_no_write_witness :
    (∀ c ∈ (main AssertFail.abort (sampleEnv fat16 true (some (fullDevConstraint 100000 4194304)))
        ⟨some sampleDevName, 629145600, false, false⟩).trace, c.isWrite = false)
      ∧ main AssertFail.abort (sampleEnv fat16 true (some (fullDevConstraint 100000 4194304)))
          ⟨some sampleDevName, 629145600, false, false⟩
        = ⟨[Call.ped_device_get, Call.ped_device_open, Call.ped_disk_new,
            Call.ped_disk_get_partition, Call.ped_partition_is_busy true,
            Call.ped_exception_throw Msg.busy, Call.ped_disk_destroy],
          Exit.returned 1⟩ :=
  have h := busy_guard_no_write AssertFail.abort
    (sampleEnv fat16 true (some (fullDevConstraint 100000 4194304)))
    ⟨some sampleDevName, 629145600, false, false⟩ (samplePart fat16 true) rfl rfl
  ⟨h.2.1, h.2.2.1 sampleDev (sampleDisk fat16 true) fat16 rfl (by decide) rfl rfl rfl rfl
    (by decide)⟩

theorem main_finish_spec (dev : PedDevice) :
    (main_finish dev).exit = Exit.returned 0
      ∧ quietFor Call.isWrite (main_finish dev).trace = true := by
  unfold main_finish
  split <;> simp [after, done, quietFor, Call.isWrite]

/-- What a successful run of the execution part looks like. -/
theorem main_execute_success (env : Env) (opts : Opts) (dev : PedDevice) (part : PedPartition)
    (plan : Plan) (c : PedConstraint)
    (h : (main_execute env opts dev part plan c).exit = Exit.returned 0) :
    ∃ g1, env.ped_disk_set_partition_geom part.geom c plan.new_geom.start plan.new_geom.end_
        = some g1
      ∧ (opts.is_evms = false →
          (main_execute env opts dev part plan c).trace
            = [Call.ped_disk_set_partition_geom c plan.new_geom.start plan.new_geom.end_,
                Call.ped_file_system_resize g1, Call.ped_partition_set_system,
                Call.ped_file_system_close, Call.ped_disk_commit g1]
              ++ (main_finish dev).trace)
      ∧ (opts.is_evms = true →
          ∃ g2, env.ped_disk_set_partition_geom g1 (ped_constraint_exact dev plan.old_geom)
              plan.old_geom.start plan.old_geom.end_ = some g2
            ∧ (main_execute env opts dev part plan c).trace
              = [Call.ped_disk_set_partition_geom c plan.new_geom.start plan.new_geom.end_,
                  Call.ped_file_system_resize g1, Call.ped_partition_set_system,
                  Call.ped_file_system_close,
                  Call.ped_disk_set_partition_geom (ped_constraint_exact dev plan.old_geom)
                    plan.old_geom.start plan.old_geom.end_,
                  Call.ped_disk_commit_to_dev g2]
                ++ (main_finish dev).trace) := by
  unfold main_execute at h ⊢
  cases hg1 : env.ped_disk_set_partition_geom part.geom c plan.new_geom.start
      plan.new_geom.end_ with
  | none => simp [hg1, after, done] at h
  | some g1 =>
    simp only [hg1] at h ⊢
    refine ⟨g1, rfl, ?_, ?_⟩
    · intro hev
      by_cases hr : env.ped_file_system_resize g1 = false
      · simp [hr, after, done] at h
      · by_cases hc : env.ped_disk_commit = false
        · simp [hr, hev, hc, after, done] at h
        · simp [hr, hev, hc, after]
    · intro hev
      by_cases hr : env.ped_file_system_resize g1 = false
      · simp [hr, after, done] at h
      · cases hg2 : env.ped_disk_set_partition_geom g1 (ped_constraint_exact dev plan.old_geom)
            plan.old_geom.start plan.old_geom.end_ with
        | none => simp [hr, hev, hg2, after, done] at h
        | some g2 =>
          refine ⟨g2, rfl, ?_⟩
          by_cases hc : env.ped_disk_commit_to_dev = false
          · simp [hr, hev, hg2, hc, after, done] at h
          · simp [hr, hev, hg2, hc, after]

theorem exact_solution (dev : PedDevice) (old g : PedGeometry)
    (h : ped_constraint_is_solution (ped_constraint_exact dev old) g) :
    g.start = old.start ∧ g.end_ = old.end_ := by
  obtain ⟨h1, h2, _, _⟩ := h
  rw [inside_iff] at h1 h2
  simp only [ped_constraint_exact] at h1 h2
  omega

/-- The sample answer function returns solutions of the constraint it is
given. -/
theorem sample_set_partition_geom_solution (cur : PedGeometry) (c : PedConstraint)
    (s e : Int) (g : PedGeometry) (h : sample_set_partition_geom cur c s e = some g) :
    ped_constraint_is_solution c g := by
  unfold sample_set_partition_geom at h
  split at h
  · rename_i hc
    injection h with h
    subst h
    unfold ped_constraint_is_solution
    simp only [inside_iff]
    omega
  · cases h

/-- C4: in every successful resize run the file system is resized to the
geometry that `ped_disk_set_partition_geom` applied for the planned geometry.
In ContentOnly (EVMS) mode the original geometry is then re-applied under
`ped_constraint_exact` of that geometry, the entry committed has exactly the
start and end the partition had before the resize, and the commit is
`ped_disk_commit_to_dev`, the only write calls being the six listed (so
`ped_disk_commit` is never called).  In Authoritative mode the commit is
`ped_disk_commit` and the committed entry carries the new geometry. -/
theorem content_only_commit (m : AssertFail) (env : Env) (opts : Opts)
    (hsolver : ∀ cur c s e g, env.ped_disk_set_partition_geom cur c s e = some g →
      ped_constraint_is_solution c g)
    (hinfo : opts.info = false)
    (hexit : (main m env opts).exit = Exit.returned 0) :
    ∃ dev disk part tr2 plan c g1 pre post,
      env.ped_device_get = some dev
      ∧ env.ped_disk_get_partition = some part
      ∧ main_plan m env opts dev disk part = Step.go tr2 plan
      ∧ env.ped_disk_set_partition_geom part.geom c plan.new_geom.start plan.new_geom.end_
          = some g1
      ∧ (∀ x ∈ pre, x.isWrite = false) ∧ (∀ x ∈ post, x.isWrite = false)
      ∧ (opts.is_evms = true →
          ∃ g2, (main m env opts).trace
              = pre ++ [Call.ped_disk_set_partition_geom c plan.new_geom.start plan.new_geom.end_,
                  Call.ped_file_system_resize g1, Call.ped_partition_set_system,
                  Call.ped_file_system_close,
                  Call.ped_disk_set_partition_geom (ped_constraint_exact dev part.geom)
                    part.geom.start part.geom.end_,
                  Call.ped_disk_commit_to_dev g2] ++ post
            ∧ g2.start = part.geom.start ∧ g2.end_ = part.geom.end_)
      ∧ (opts.is_evms = false →
          (main m env opts).trace
            = pre ++ [Call.ped_disk_set_partition_geom c plan.new_geom.start plan.new_geom.end_,
                Call.ped_file_system_resize g1, Call.ped_partition_set_system,
                Call.ped_file_system_close, Call.ped_disk_commit g1] ++ post) := by
  rcases main_cases m env opts with ⟨r, hop, hm⟩ | ⟨tr, dev, disk, part, name, hop, hrest⟩
  · rw [hm, (main_open_stop env opts r hop).1] at hexit
    cases hexit
  · obtain ⟨hdev, _, hpart, _, _, _, htr⟩ := main_open_go env opts tr dev disk part name hop
    rcases hrest with ⟨hi, _⟩ | ⟨_, r, hpl, hm⟩ | ⟨_, tr2, plan, hpl, hck⟩
    · rw [hinfo] at hi
      cases hi
    · rw [hm] at hexit
      exact absurd hexit (main_plan_stop m env opts dev disk part r hpl).1
    · obtain ⟨hq2, _, _, hold⟩ := main_plan_go m env opts dev disk part tr2 plan hpl
      rcases hck with ⟨r, hck, hm⟩ | ⟨tr3, c, hck, hm⟩
      · rw [hm] at hexit
        simp only [after] at hexit
        rw [(main_check_stop env opts dev part name plan r hck).1] at hexit
        cases hexit
      · have htr3 := (main_check_go env opts dev part name plan tr3 c hck).1
        rw [hm] at hexit
        simp only [after] at hexit
        obtain ⟨g1, hg1, hauth, hevms⟩ := main_execute_success env opts dev part plan c hexit
        have hpre : ∀ x ∈ tr ++ (tr2 ++ tr3), x.isWrite = false := by
          rw [← quietFor_iff, htr, htr3]
          simp [quietFor_append, quietFor_cons, quietFor_nil, hq2, Call.isWrite]
        have hpost := (quietFor_iff _ _).1 (main_finish_spec dev).2
        refine ⟨dev, disk, part, tr2, plan, c, g1, tr ++ (tr2 ++ tr3), (main_finish dev).trace,
          hdev, hpart, hpl, hg1, hpre, hpost, ?_, ?_⟩
        · intro hev
          obtain ⟨g2, hg2, ht⟩ := hevms hev
          have hsol := exact_solution dev plan.old_geom g2 (hsolver _ _ _ _ _ hg2)
          rw [hold] at hsol ht
          refine ⟨g2, ?_, hsol.1, hsol.2⟩
          rw [hm]
          simp only [after, ht]
          simp
        · intro hev
          rw [hm]
          simp only [after, hauth hev]
          simp

/-- Witness of C4: the sample FAT16 partition of 400 MiB, 600 MiB requested in
EVMS mode; the run succeeds. -/
theorem content_only_commit_witness :
    ∃ dev disk part tr2 plan c g1 pre post,
      (sampleEnv fat16 false (some (fullDevConstraint 100000 4194304))).ped_device_get = some dev
      ∧ (sampleEnv fat16 false (some (fullDevConstraint 100000 4194304))).ped_disk_get_partition
          = some part
      ∧ main_plan AssertFail.abort (sampleEnv fat16 false (some (fullDevConstraint 100000 4194304)))
          ⟨some sampleDevName, 629145600, true, false⟩ dev disk part = Step.go tr2 plan
      ∧ (sampleEnv fat16 false (some (fullDevConstraint 100000 4194304))).ped_disk_set_partition_geom
          part.geom c plan.new_geom.start plan.new_geom.end_ = some g1
      ∧ (∀ x ∈ pre, x.isWrite = false) ∧ (∀ x ∈ post, x.isWrite = false)
      ∧ ((true : Bool) = true →
          ∃ g2, (main AssertFail.abort
                (sampleEnv fat16 false (some (fullDevConstraint 100000 4194304)))
                ⟨some sampleDevName, 629145600, true, false⟩).trace
              = pre ++ [Call.ped_disk_set_partition_geom c plan.new_geom.start plan.new_geom.end_,
                  Call.ped_file_system_resize g1, Call.ped_partition_set_system,
                  Call.ped_file_system_close,
                  Call.ped_disk_set_partition_geom (ped_constraint_exact dev part.geom)
                    part.geom.start part.geom.end_,
                  Call.ped_disk_commit_to_dev g2] ++ post
            ∧ g2.start = part.geom.start ∧ g2.end_ = part.geom.end_)
      ∧ ((true : Bool) = false →
          (main AssertFail.abort (sampleEnv fat16 false (some (fullDevConstraint 100000 4194304)))
              ⟨some sampleDevName, 629145600, true, false⟩).trace
            = pre ++ [Call.ped_disk_set_partition_geom c plan.new_geom.start plan.new_geom.end_,
                Call.ped_file_system_resize g1, Call.ped_partition_set_system,
                Call.ped_file_system_close, Call.ped_disk_commit g1] ++ post) :=
  content_only_commit AssertFail.abort
    (sampleEnv fat16 false (some (fullDevConstraint 100000 4194304)))
    ⟨some sampleDevName, 629145600, true, false⟩
    (fun cur c s e g h => sample_set_partition_geom_solution cur c s e g h)
    rfl (by decide)

theorem main_check_stop_fat16 (env : Env) (opts : Opts) (dev : PedDevice) (part : PedPartition)
    (name : List Char) (plan : Plan) (r : Run) (hname : is_fat32_name name = false)
    (h : main_check env opts dev part name plan = Step.stop r) :
    quietFor Call.isFat32Min r.trace = true := by
  unfold main_check at h
  repeat' split at h
  all_goals first
    | (rename_i hc
       exfalso
       rw [hname] at hc
       simp at hc
       done)
    | (injection h with h
       subst h
       simp [after, done, quietFor, Call.isFat32Min])
    | cases h

theorem main_check_fat32_small (env : Env) (opts : Opts) (dev : PedDevice) (part : PedPartition)
    (name : List Char) (plan : Plan) (c : PedConstraint)
    (hopen : env.ped_file_system_open part.geom = true)
    (hint : constraint_intersect_and_destroy env env.ped_file_system_get_resize_constraint
      (some (constraint_from_start_end dev plan.range_start plan.range_end)) = some c) :
    main_check env opts dev part name plan =
      if is_fat32_name name = true ∧ opts.size < FAT32MIN then
        Step.stop (after [Call.ped_file_system_open part.geom,
          Call.ped_file_system_get_resize_constraint, Call.ped_constraint_intersect,
          Call.ped_exception_throw Msg.fat32_min] (done 1))
      else
        Step.go [Call.ped_file_system_open part.geom,
          Call.ped_file_system_get_resize_constraint, Call.ped_constraint_intersect] c := by
  unfold main_check
  simp [hopen, hint]

theorem main_resize_fat32_small_quiet (m : AssertFail) (env : Env) (opts : Opts)
    (hinfo : opts.info = false) (part : PedPartition) (name : List Char)
    (hpart : env.ped_disk_get_partition = some part) (hname : part.fs_type_name = some name)
    (h32 : is_fat32_name name = true) (hsize : opts.size < FAT32MIN) :
    quietFor Call.isWrite (main m env opts).trace = true
      ∧ (main m env opts).exit ≠ Exit.returned 0 := by
  rcases main_cases m env opts with ⟨r, hop, hm⟩ | ⟨tr, dev, disk, part1, name1, hop, hrest⟩
  · obtain ⟨h1, h2, _, _⟩ := main_open_stop env opts r hop
    rw [hm]
    refine ⟨h2, ?_⟩
    rw [h1]
    decide
  · obtain ⟨_, _, hpart1, hname1, _, _, htr⟩ := main_open_go env opts tr dev disk part1 name1 hop
    rw [hpart] at hpart1
    injection hpart1 with hpart1
    subst hpart1
    rw [hname] at hname1
    injection hname1 with hname1
    subst hname1
    have hq0 : quietFor Call.isWrite tr = true := by
      rw [htr]
      decide
    rcases hrest with ⟨hi, _⟩ | ⟨_, r, hpl, hm⟩ | ⟨_, tr2, plan, hpl, hck⟩
    · rw [hinfo] at hi
      cases hi
    · obtain ⟨h1, h2, _, _⟩ := main_plan_stop m env opts dev disk part r hpl
      rw [hm]
      exact ⟨by simp [after, quietFor_append, hq0, h2], h1⟩
    · obtain ⟨hq2, _, _, _⟩ := main_plan_go m env opts dev disk part tr2 plan hpl
      rcases hck with ⟨r, hck, hm⟩ | ⟨tr3, c, hck, hm⟩
      · obtain ⟨h1, h2, _⟩ := main_check_stop env opts dev part name plan r hck
        rw [hm]
        refine ⟨by simp [after, quietFor_append, hq0, hq2, h2], ?_⟩
        simp only [after]
        rw [h1]
        decide
      · exact absurd ⟨h32, hsize⟩ (main_check_go env opts dev part name plan tr3 c hck).2.2.2

theorem main_fat16_quiet (m : AssertFail) (env : Env) (opts : Opts)
    (part : PedPartition) (name : List Char)
    (hpart : env.ped_disk_get_partition = some part) (hname : part.fs_type_name = some name)
    (h16 : is_fat32_name name = false) :
    quietFor Call.isFat32Min (main m env opts).trace = true := by
  rcases main_cases m env opts with ⟨r, hop, hm⟩ | ⟨tr, dev, disk, part1, name1, hop, hrest⟩
  · rw [hm]
    exact (main_open_stop env opts r hop).2.2.1
  · obtain ⟨_, _, hpart1, hname1, _, _, htr⟩ := main_open_go env opts tr dev disk part1 name1 hop
    rw [hpart] at hpart1
    injection hpart1 with hpart1
    subst hpart1
    rw [hname] at hname1
    injection hname1 with hname1
    subst hname1
    have hq0 : quietFor Call.isFat32Min tr = true := by
      rw [htr]
      decide
    rcases hrest with ⟨_, hm⟩ | ⟨_, r, hpl, hm⟩ | ⟨_, tr2, plan, hpl, hck⟩
    · rw [hm]
      simp [after, quietFor_append, hq0, (main_info_quiet env part).2.2]
    · rw [hm]
      simp [after, quietFor_append, hq0, (main_plan_stop m env opts dev disk part r hpl).2.2.2]
    · have hq2 := (main_plan_go m env opts dev disk part tr2 plan hpl).2.2.1
      rcases hck with ⟨r, hck, hm⟩ | ⟨tr3, c, hck, hm⟩
      · rw [hm]
        simp [after, quietFor_append, hq0, hq2,
          main_check_stop_fat16 env opts dev part name plan r h16 hck]
      · have htr3 := (main_check_go env opts dev part name plan tr3 c hck).1
        rw [hm, htr3]
        simp [after, quietFor_append, quietFor_cons, hq0, hq2, Call.isFat32Min,
          (main_execute_quiet env opts dev part plan c).2]

theorem main_eq_of_reach (m : AssertFail) (env : Env) (opts : Opts) (hinfo : opts.info = false)
    (tr tr2 : List Call) (dev : PedDevice) (disk : PedDisk) (part : PedPartition)
    (name : List Char) (plan : Plan)
    (hop : main_open env opts = Step.go tr (dev, disk, part, name))
    (hpl : main_plan m env opts dev disk part = Step.go tr2 plan) :
    main m env opts = after tr (after tr2
      (match main_check env opts dev part name plan with
        | Step.stop r => r
        | Step.go tr3 constraint =>
          after tr3 (main_execute env opts dev part plan constraint))) := by
  unfold main
  rw [hop]
  simp only [hinfo, hpl]
  rfl

/-- C2 (amended): on a FAT32 volume a resize request below 536870912 bytes
never makes a geometry, content-resize or commit call and never succeeds,
whatever the file system reports; when the steps before the check succeed
(planning, opening the file system, a non-empty constraint intersection) the
run ends with the FAT32 minimum-size exception and status 1; a request of at
least 536870912 bytes, so also of exactly that size, passes the check and
goes on to `ped_disk_set_partition_geom`; a FAT16 request never raises the
FAT32 minimum-size exception. -/
theorem fat32_policy (m : AssertFail) (env : Env) (opts : Opts) (hinfo : opts.info = false) :
    (∀ part name, env.ped_disk_get_partition = some part → part.fs_type_name = some name →
      is_fat32_name name = true → opts.size < FAT32MIN →
        (∀ c ∈ (main m env opts).trace, c.isWrite = false)
          ∧ (main m env opts).exit ≠ Exit.returned 0)
    ∧ (∀ tr dev disk part name tr2 plan c,
        main_open env opts = Step.go tr (dev, disk, part, name) →
        main_plan m env opts dev disk part = Step.go tr2 plan →
        env.ped_file_system_open part.geom = true →
        constraint_intersect_and_destroy env env.ped_file_system_get_resize_constraint
          (some (constraint_from_start_end dev plan.range_start plan.range_end)) = some c →
        is_fat32_name name = true →
          (opts.size < FAT32MIN →
            main m env opts
              = ⟨tr ++ (tr2 ++ [Call.ped_file_system_open part.geom,
                  Call.ped_file_system_get_resize_constraint, Call.ped_constraint_intersect,
                  Call.ped_exception_throw Msg.fat32_min]), Exit.returned 1⟩)
          ∧ (FAT32MIN ≤ opts.size →
            Call.ped_exception_throw Msg.fat32_min ∉ (main m env opts).trace
              ∧ Call.ped_disk_set_partition_geom c plan.new_geom.start plan.new_geom.end_
                ∈ (main m env opts).trace))
    ∧ (∀ part name, env.ped_disk_get_partition = some part → part.fs_type_name = some name →
        is_fat32_name name = false →
          Call.ped_exception_throw Msg.fat32_min ∉ (main m env opts).trace) := by
  refine ⟨?_, ?_, ?_⟩
  · intro part name hpart hname h32 hsize
    have h := main_resize_fat32_small_quiet m env opts hinfo part name hpart hname h32 hsize
    exact ⟨(quietFor_iff _ _).1 h.1, h.2⟩
  · intro tr dev disk part name tr2 plan c hop hpl hopen hint h32
    have hm := main_eq_of_reach m env opts hinfo tr tr2 dev disk part name plan hop hpl
    have hck := main_check_fat32_small env opts dev part name plan c hopen hint
    constructor
    · intro hsize
      rw [if_pos ⟨h32, hsize⟩] at hck
      rw [hm, hck]
      simp [after, done]
    · intro hsize
      have hn : ¬ (is_fat32_name name = true ∧ opts.size < FAT32MIN) := by
        intro hc
        exact absurd hc.2 (not_lt.mpr hsize)
      rw [if_neg hn] at hck
      have htr := (main_open_go env opts tr dev disk part name hop).2.2.2.2.2.2
      have hq2 := (main_plan_go m env opts dev disk part tr2 plan hpl).2.2.1
      have hq3 := (main_execute_quiet env opts dev part plan c).2
      rw [hm, hck]
      constructor
      · intro hmem
        have hq : quietFor Call.isFat32Min
            (after tr (after tr2 (after [Call.ped_file_system_open part.geom,
              Call.ped_file_system_get_resize_constraint, Call.ped_constraint_intersect]
              (main_execute env opts dev part plan c)))).trace = true := by
          rw [htr]
          simp [after, quietFor_append, quietFor_cons, quietFor_nil, hq2, hq3, Call.isFat32Min]
        have := (quietFor_iff _ _).1 hq _ hmem
        simp [Call.isFat32Min] at this
      · simp only [after, List.mem_append]
        right
        right
        right
        unfold main_execute
        simp [after]
  · intro part name hpart hname h16 hmem
    have hq := main_fat16_quiet m env opts part name hpart hname h16
    have := (quietFor_iff _ _).1 hq _ hmem
    simp [Call.isFat32Min] at this

/-- Witness of C2 (amended): 100 MiB requested on the sample FAT32 volume. -/
theorem fat32_policy_witness :
    (∀ c ∈ (main AssertFail.abort (sampleEnv fat32 false (some (fullDevConstraint 100000 4194304)))
        ⟨some sampleDevName, 104857600, false, false⟩).trace, c.isWrite = false)
      ∧ (main AssertFail.abort (sampleEnv fat32 false (some (fullDevConstraint 100000 4194304)))
        ⟨some sampleDevName, 104857600, false, false⟩).exit ≠ Exit.returned 0 :=
  (fat32_policy AssertFail.abort (sampleEnv fat32 false (some (fullDevConstraint 100000 4194304)))
    ⟨some sampleDevName, 104857600, false, false⟩ rfl).1
    (samplePart fat32 false) fat32 rfl rfl (by decide) (by decide)

/-- C2 fails as stated: on the sample FAT32 volume, with a file system that
reports a minimum of 300 MiB (end range 634879..4194303), a request of
100 MiB is below 536870912 bytes, yet the run ends at the empty constraint
intersection with status 1 and the FAT32 minimum-size exception is never
raised; the same happens when the file system reports no constraint at
all. -/
theorem fat32_policy_counterexample :
    is_fat32_name fat32 = true ∧ (104857600 : Int) < 536870912
      ∧ main AssertFail.abort
          (sampleEnv fat32 false
            (some ⟨⟨20480, 1, 20480⟩, ⟨634879, 3559425, 4194303⟩, 614400, 4173824⟩))
          ⟨some sampleDevName, 104857600, false, false⟩
        = ⟨[Call.ped_device_get, Call.ped_device_open, Call.ped_disk_new,
            Call.ped_disk_get_partition, Call.ped_partition_is_busy false,
            Call.ped_unit_format 839679, Call.ped_unit_format 225280,
            Call.ped_unit_parse ['1', '1', '5', 'M', 'B'],
            Call.ped_file_system_open ⟨20480, 819200, 839679⟩,
            Call.ped_file_system_get_resize_constraint, Call.ped_constraint_intersect],
          Exit.returned 1⟩
      ∧ Call.ped_exception_throw Msg.fat32_min ∉
        (main AssertFail.abort
          (sampleEnv fat32 false
            (some ⟨⟨20480, 1, 20480⟩, ⟨634879, 3559425, 4194303⟩, 614400, 4173824⟩))
          ⟨some sampleDevName, 104857600, false, false⟩).trace
      ∧ Call.ped_exception_throw Msg.fat32_min ∉
        (main AssertFail.abort (sampleEnv fat32 false none)
          ⟨some sampleDevName, 104857600, false, false⟩).trace
      ∧ (main AssertFail.abort (sampleEnv fat32 false none)
          ⟨some sampleDevName, 104857600, false, false⟩).exit = Exit.returned 1 := by
  refine ⟨by decide, by decide, by decide, by decide, by decide, by decide⟩

/-- C5 (code at the failing input): on a 4 TB disk a partition at sectors
4294000000..4296000000 is to end at 4294968000, with the end range
4294967024..4294968976.  The candidate lies in its range and none of the
three candidates (4296000000, 4296000000, 4293999999) does, so the end is to
keep 4294968000.  The scan does not stop at the sentinel: the `int` `-1`
reads back as 4294967295, which lies in the end range, and the end becomes
4294967295.  With a sentinel that reads back as `-1` the end is kept. -/
theorem sentinel_slot_taken_as_endpoint :
    ped_geometry_test_sector_inside ⟨4294000000, 1, 4294000000⟩ 4294000000 = true
      ∧ ped_geometry_test_sector_inside ⟨4294967024, 1953, 4294968976⟩ 4294968000 = true
      ∧ firstInRange ⟨4294967024, 1953, 4294968976⟩ [4296000000, 4296000000, 4294000000 - 1]
          4294968000 = 4294968000
      ∧ (∀ (m : AssertFail) (f g : Int → Int → List Int),
          snap_endpoints m ⟨f, fun s e => 4294967295 :: g s e⟩ ⟨4294000000, 968001, 4294968000⟩
              (some ⟨4294000000, 2000001, 4296000000⟩) bigDisk ⟨4294000000, 1, 4294000000⟩
              ⟨4294967024, 1953, 4294968976⟩
            = Except.ok (4294000000, 4294967295))
      ∧ (∀ m : AssertFail,
          snap_to_boundaries m va_gcc_O2 ⟨4294000000, 968001, 4294968000⟩
              (some ⟨4294000000, 2000001, 4296000000⟩) bigDisk ⟨4294000000, 1, 4294000000⟩
              ⟨4294967024, 1953, 4294968976⟩
            = Except.ok ⟨4294000000, 967296, 4294967295⟩)
      ∧ (∀ m : AssertFail,
          snap_to_boundaries m va_gcc_O1 ⟨4294000000, 968001, 4294968000⟩
              (some ⟨4294000000, 2000001, 4296000000⟩) bigDisk ⟨4294000000, 1, 4294000000⟩
              ⟨4294967024, 1953, 4294968976⟩
            = Except.ok ⟨4294000000, 967296, 4294967295⟩)
      ∧ (∀ m : AssertFail,
          snap_to_boundaries m va_minus_one ⟨4294000000, 968001, 4294968000⟩
              (some ⟨4294000000, 2000001, 4296000000⟩) bigDisk ⟨4294000000, 1, 4294000000⟩
              ⟨4294967024, 1953, 4294968976⟩
            = Except.ok ⟨4294000000, 968001, 4294968000⟩) := by
  refine ⟨by decide, by decide, by decide, ?_, ?_, ?_, ?_⟩
  · intro m f g
    cases m <;> rfl
  · intro m
    cases m <;> rfl
  · intro m
    cases m <;> rfl
  · intro m
    cases m <;> rfl

/-- The sectors of the layout `midDisk`, the ranges and the geometries of the
re-snapping example are well formed: valid geometries, regions that share no
sector, every sector of the device inside a region. -/
theorem midDisk_well_formed :
    (∀ p ∈ midDisk.part_list, p.geom.valid) ∧ midDisk.disjoint
      ∧ (∀ x : Int, 0 ≤ x ∧ x ≤ 4194303 →
          (ped_disk_get_partition_by_sector midDisk x).isSome = true)
      ∧ (⟨20000, 10001, 30000⟩ : PedGeometry).valid
      ∧ (⟨28000, 52001, 80000⟩ : PedGeometry).valid
      ∧ (⟨10000, 20001, 30000⟩ : PedGeometry).valid := by
  refine ⟨by decide, ?_, ?_, by decide, by decide, by decide⟩
  · intro p hp q hq _ _ x hx hy
    simp only [midDisk, List.mem_cons, List.mem_singleton, List.mem_nil_iff, or_false]
      at hp hq
    rw [inside_iff] at hx hy
    rcases hp with rfl | rfl | rfl <;> rcases hq with rfl | rfl | rfl <;>
      simp only at hx hy ⊢ <;> omega
  · intro x hx
    unfold ped_disk_get_partition_by_sector
    rw [List.find?_isSome]
    by_cases h1 : x ≤ 9999
    · refine ⟨⟨⟨0, 10000, 9999⟩, false, none, false⟩, by simp [midDisk], ?_⟩
      simp [ped_geometry_test_sector_inside]
      omega
    · by_cases h2 : x ≤ 30000
      · refine ⟨⟨⟨10000, 20001, 30000⟩, false, some ['f', 'a', 't', '1', '6'], false⟩,
          by simp [midDisk], ?_⟩
        simp [ped_geometry_test_sector_inside]
        omega
      · refine ⟨⟨⟨30001, 4164303, 4194303⟩, false, none, false⟩, by simp [midDisk], ?_⟩
        simp [ped_geometry_test_sector_inside]
        omega

/-- C6 (code at the failing input): the sample partition ends at sector
839679 and the request is its own size, 419430400 bytes.  The requested end,
839680, renders like the current end, the end range is pinned to 839679, and
the candidate end 839680 lies outside it: the assertion in `snap` fails.
With an aborting assertion the run stops there.  With the assertion action
every `snap` returns 0, so whatever is read behind the arguments the scan
either runs off the stack or ends at a `-1` with the end still 839680; in no
case does `snap_to_boundaries` return the current geometry
20480..839679. -/
theorem noop_request_breaks_snap_assertion :
    sample_unit_format (20480 + Int.tdiv 419430400 512) = sample_unit_format 839679
      ∧ main_end_range (sampleEnv fat16 false (some (fullDevConstraint 100000 4194304)))
          ⟨some sampleDevName, 419430400, false, false⟩ sampleDev (samplePart fat16 false)
        = Step.go [Call.ped_unit_format 839679, Call.ped_unit_format 839680]
            (839680, ⟨839679, 1, 839679⟩)
      ∧ (∀ va : VaRead,
          snap_to_boundaries AssertFail.abort va ⟨20480, 819201, 839680⟩
              (some ⟨20480, 819200, 839679⟩) (sampleDisk fat16 false) ⟨20480, 1, 20480⟩
              ⟨839679, 1, 839679⟩
            = Except.error Fault.assertion)
      ∧ (main AssertFail.abort (sampleEnv fat16 false (some (fullDevConstraint 100000 4194304)))
          ⟨some sampleDevName, 419430400, false, false⟩).exit = Exit.fault Fault.assertion
      ∧ (∀ va : VaRead,
          snap_to_boundaries AssertFail.action va ⟨20480, 819201, 839680⟩
              (some ⟨20480, 819200, 839679⟩) (sampleDisk fat16 false) ⟨20480, 1, 20480⟩
              ⟨839679, 1, 839679⟩
            = Except.ok ⟨20480, 819201, 839680⟩
          ∨ snap_to_boundaries AssertFail.action va ⟨20480, 819201, 839680⟩
              (some ⟨20480, 819200, 839679⟩) (sampleDisk fat16 false) ⟨20480, 1, 20480⟩
              ⟨839679, 1, 839679⟩
            = Except.error Fault.va_overrun)
      ∧ (main AssertFail.action (sampleEnv fat16 false (some (fullDevConstraint 100000 4194304)))
          ⟨some sampleDevName, 419430400, false, false⟩).exit = Exit.fault Fault.va_overrun
      ∧ (∀ c ∈ (main AssertFail.action
            (sampleEnv fat16 false (some (fullDevConstraint 100000 4194304)))
            ⟨some sampleDevName, 419430400, false, false⟩).trace, c.isWrite = false) := by
  refine ⟨by decide, by decide, ?_, by decide, ?_, by decide, by decide⟩
  · intro va
    rfl
  · intro va
    have hout : ped_geometry_test_sector_inside ⟨839679, 1, 839679⟩ 839680 = false := by decide
    have hse : snap_endpoints AssertFail.action va ⟨20480, 819201, 839680⟩
        (some ⟨20480, 819200, 839679⟩) (sampleDisk fat16 false) ⟨20480, 1, 20480⟩
        ⟨839679, 1, 839679⟩
        = match try_snap AssertFail.action 839680 ⟨839679, 1, 839679⟩
            ([839679, 839679, 20480 - 1] ++ va.end_call 20480 839680) with
          | Except.error f => Except.error f
          | Except.ok e => Except.ok (20480, e) := rfl
    unfold snap_to_boundaries
    rw [hse]
    rcases try_snap_outside_action_cases 839680 ⟨839679, 1, 839679⟩
      ([839679, 839679, 20480 - 1] ++ va.end_call 20480 839680) hout with h | h
    · left
      rw [h]
      rfl
    · right
      rw [h]

/-- C10 (code at the failing input): the sample partition starts at sector
20480 and 100 bytes are requested.  The requested end 20480 renders as
"10.5MB", which parses back to sector 20507 with the range 19531..21483; the
previous end and the region end 839679 are outside that range, so the end
snaps to the sector before the partition, 20479: the endpoints are start
20480 and end 20479 and the assertion `start <= end` fails.  Both scans find
a candidate before the sentinel, so this holds whatever is read behind the
arguments. -/
theorem tiny_request_breaks_order_assertion :
    (0 : Int) < 100
      ∧ main_end_range (sampleEnv fat16 false (some (fullDevConstraint 1 4194304)))
          ⟨some sampleDevName, 100, false, false⟩ sampleDev (samplePart fat16 false)
        = Step.go [Call.ped_unit_format 839679, Call.ped_unit_format 20480,
            Call.ped_unit_parse ['1', '0', '.', '5', 'M', 'B']] (20507, ⟨19531, 1953, 21483⟩)
      ∧ (∀ va : VaRead,
          snap_endpoints AssertFail.abort va ⟨20480, 28, 20507⟩ (some ⟨20480, 819200, 839679⟩)
            (sampleDisk fat16 false) ⟨20480, 1, 20480⟩ ⟨19531, 1953, 21483⟩
          = Except.ok (20480, 20479))
      ∧ (∀ va : VaRead,
          snap_endpoints AssertFail.action va ⟨20480, 28, 20507⟩ (some ⟨20480, 819200, 839679⟩)
            (sampleDisk fat16 false) ⟨20480, 1, 20480⟩ ⟨19531, 1953, 21483⟩
          = Except.ok (20480, 20479))
      ∧ (∀ va : VaRead,
          snap_to_boundaries AssertFail.abort va ⟨20480, 28, 20507⟩
            (some ⟨20480, 819200, 839679⟩) (sampleDisk fat16 false) ⟨20480, 1, 20480⟩
            ⟨19531, 1953, 21483⟩
          = Except.error Fault.assertion)
      ∧ (main AssertFail.abort (sampleEnv fat16 false (some (fullDevConstraint 1 4194304)))
          ⟨some sampleDevName, 100, false, false⟩).exit = Exit.fault Fault.assertion := by
  refine ⟨by decide, by decide, fun _ => rfl, fun _ => rfl, fun _ => rfl, by decide⟩

end Fatresize
